import Mathlib

/-!
Verification of the packmaker resource-pack transcoder.

This file shallowly embeds the core operations of the pack maker
(model validation, the Platform A ("Java") item-definition emission, the
geometry converter to Platform B ("Bedrock") bone/cube documents, the
predicate decoding of the archive importer and texture-reference resolver, the
merge engine, the state handling of the export pipeline and the `.lang`
language codec) and proves or refutes the specified properties.

Conventions of the embedding:
* JavaScript numbers appearing in the data model are embedded as `Int`
  (the claims under study never depend on fractional values); 32-bit
  coercions (`| 0`) are modelled explicitly with `js32`.
* JavaScript strings are Lean `String`s; the string operations the code
  uses (`trim`, `indexOf`, `split`, `replace` with the concrete regexes
  appearing in the source) are re-implemented on `List Char` below, each
  helper documenting the JavaScript operation it models.
* `File`/blob values are embedded as `FileMeta` tokens carrying the
  metadata the code reads from them (name, size, pixel dimensions and,
  for zip entries holding model JSON, the parse outcome).
* JavaScript object/`Map` insertion-order semantics are modelled with
  association lists; `jsMapSet` is `Map.set` / keyed assignment
  (update-in-place for an existing key, append otherwise).
* Impure inputs (`Date.now()`, `uuidv4()`, image probing) are passed in
  as explicit arguments or carried on `FileMeta`.
-/

/-! ## Generic JavaScript-flavoured helpers -/

/-- The whitespace characters removed by JavaScript `String.prototype.trim`. -/
def isJsWs (c : Char) : Bool :=
  c = ' ' || c = '\t' || c = '\n' || c = '\r' || c = '\x0b' || c = '\x0c' ||
  c = ' ' || c = ' ' || c = ' ' || c = ' ' || c = ' ' ||
  c = ' ' || c = ' ' || c = ' ' || c = ' ' || c = ' ' ||
  c = ' ' || c = ' ' || c = ' ' || c = ' ' || c = ' ' ||
  c = ' ' || c = ' ' || c = '　' || c = '﻿'

/-- JavaScript `trim` on a character list: drop whitespace from both ends. -/
def jsTrimL (l : List Char) : List Char :=
  ((l.dropWhile isJsWs).reverse.dropWhile isJsWs).reverse

/-- JavaScript `String.prototype.trim`. -/
def jsTrim (s : String) : String := ⟨jsTrimL s.data⟩

/-- JavaScript `String.prototype.split(sep)` for a one-character separator. -/
def splitOnChar (c : Char) : List Char → List (List Char)
  | [] => [[]]
  | ch :: t =>
    match splitOnChar c t with
    | [] => [[]]
    | h :: r => if ch = c then [] :: h :: r else (ch :: h) :: r

/-- JavaScript `Array.prototype.join(sep)` for a one-character separator. -/
def joinWithChar (c : Char) : List (List Char) → List Char
  | [] => []
  | [l] => l
  | l :: l' :: ls => l ++ c :: joinWithChar c (l' :: ls)

/-- JavaScript `String.prototype.indexOf(ch)` (as `Option` instead of `-1`). -/
def charIndexOf : List Char → Char → Option Nat
  | [], _ => none
  | a :: t, c => if a = c then some 0 else (charIndexOf t c).map (· + 1)

/-- Does `needle` occur at offset `i` of `hay`? (regex/`includes` helper). -/
def subAt (hay needle : List Char) (i : Nat) : Bool :=
  needle.isPrefixOf (hay.drop i)

/-- JavaScript `String.prototype.includes`. -/
def strIncludes (s sub : String) : Bool :=
  (List.range (s.data.length + 1)).any (fun i => subAt s.data sub.data i)

/-- JavaScript `String.prototype.startsWith`. -/
def strStarts (s p : String) : Bool := p.data.isPrefixOf s.data

/-- JavaScript `String.prototype.endsWith`. -/
def strEnds (s p : String) : Bool := p.data.isSuffixOf s.data

/-- Drop the first `n` characters of a string (`String.prototype.slice(n)`). -/
def strDrop (s : String) (n : Nat) : String := ⟨s.data.drop n⟩

/-- JavaScript `Map.set` / keyed object assignment on an insertion-ordered
association list: an existing key keeps its position and gets the new value,
a new key is appended. -/
def jsMapSet {β : Type} (m : List (String × β)) (k : String) (v : β) :
    List (String × β) :=
  if (m.find? (fun kv => decide (kv.1 = k))).isSome then
    m.map (fun kv => if kv.1 = k then (kv.1, v) else kv)
  else m ++ [(k, v)]

/-- JavaScript truthiness default `x || d` for an optional number
(`undefined` and `0` both fall back to the default). -/
def jsOrNum (v : Option Int) (d : Int) : Int :=
  match v with
  | some x => if x = 0 then d else x
  | none => d

/-- JavaScript truthiness default `s || d` for an optional string
(`undefined` and `""` both fall back to the default). -/
def jsOrStr (v : Option String) (d : String) : String :=
  match v with
  | some s => if s = "" then d else s
  | none => d

/-- `path.split("/").pop() || dflt`: the final path segment, with a default
when the split yields an empty final segment. -/
def lastSegOr (s : String) (dflt : String) : String :=
  match (splitOnChar '/' s.data).getLastD [] with
  | [] => dflt
  | l => ⟨l⟩

/-- `s.split(sep).pop() || s` as used by the texture resolver: the final
segment, falling back to the whole string when that segment is empty. -/
def lastSeg (s : String) : String :=
  match (splitOnChar '/' s.data).getLastD [] with
  | [] => s
  | l => ⟨l⟩

/-- `file.name.split(".").pop()`: the part after the last dot (JavaScript
`pop` of a `split` never fails; on a dotless name it is the whole name). -/
def fileExt (s : String) : String := ⟨(splitOnChar '.' s.data).getLastD []⟩

/-- `name.replace(/\.[^/.]+$/, "")`: strip a trailing dot-extension whose
extension part is nonempty and contains neither `/` nor a further dot. -/
def stripFileExt (s : String) : String :=
  let rev := s.data.reverse
  match charIndexOf rev '.' with
  | none => s
  | some i =>
    if i = 0 then s
    else if '/' ∈ rev.take i then s
    else ⟨(rev.drop (i + 1)).reverse⟩

/-- The backquote character, by code point (for the dollar substitution
below). -/
def backquoteChar : Char := Char.ofNat 96

/-- The quote character, by code point (for the dollar substitution
below). -/
def quoteChar : Char := Char.ofNat 39

/-- ECMAScript GetSubstitution for a string replacement template against a
match of the regex `(\.[^.]+)$` (one capture group, which spans the whole
match): a doubled dollar is a literal dollar; dollar-ampersand and
dollar-one (also in its two-digit form dollar-zero-one) insert the matched
substring; dollar-backquote inserts the portion of the subject before the
match and dollar-quote the portion after it; every other dollar sequence
is literal. -/
def getSubstitution (matched before after : List Char) : List Char → List Char
  | [] => []
  | [c] => [c]
  | c :: d :: t =>
    if c = '$' then
      if d = '$' then '$' :: getSubstitution matched before after t
      else if d = '&' then matched ++ getSubstitution matched before after t
      else if d = backquoteChar then before ++ getSubstitution matched before after t
      else if d = quoteChar then after ++ getSubstitution matched before after t
      else if d = '0' then
        match t with
        | '1' :: t2 => matched ++ getSubstitution matched before after t2
        | [] => ['$', d]
        | c2 :: t2 => '$' :: d :: getSubstitution matched before after (c2 :: t2)
      else if d = '1' then matched ++ getSubstitution matched before after t
      else '$' :: d :: getSubstitution matched before after t
    else c :: getSubstitution matched before after (d :: t)

/-- `path.replace(/(\.[^.]+)$/, "_" + packName + "$1")` from `executeMerge`
(part_000 line 1896).  When the final dot-extension matches, the result is
the prefix before the match followed by the replacement template
`"_" + packName + "$1"` processed by ECMAScript dollar substitution — so
dollar sequences occurring inside the interpolated package name are
expanded as substitution patterns, not inserted literally.  With no match
(no dot, or nothing after the last dot) the path is returned unchanged. -/
def renamePath (packName : String) (path : String) : String :=
  match charIndexOf path.data.reverse '.' with
  | none => path
  | some i =>
    if i = 0 then path
    else ⟨(path.data.reverse.drop (i + 1)).reverse ++
      getSubstitution ('.' :: (path.data.reverse.take i).reverse)
        ((path.data.reverse.drop (i + 1)).reverse) []
        ('_' :: packName.data ++ ['$', '1'])⟩

/-- Lower-case hex digit for a value below 16. -/
def toHexDigit (n : Nat) : Char :=
  if n < 10 then Char.ofNat (48 + n) else Char.ofNat (87 + n)

/-- Fuel-driven base-16 digit expansion (most significant first). -/
def toHexAux : Nat → Nat → List Char
  | 0, _ => []
  | fuel + 1, n => if n = 0 then [] else toHexAux fuel (n / 16) ++ [toHexDigit (n % 16)]

/-- JavaScript `n.toString(16)` for a non-negative integer. -/
def toHexStr (n : Nat) : String := if n = 0 then "0" else ⟨toHexAux n n⟩

/-- `c.toString(16).padStart(2, "0")` from the colour import. -/
def hexByte (n : Nat) : String :=
  let s := toHexStr n
  if s.data.length < 2 then ⟨'0' :: s.data⟩ else s

/-- `"#" + rgb.map((c) => c.toString(16).padStart(2, "0")).join("")`. -/
def hexColor (rgb : List Nat) : String :=
  "#" ++ ⟨(rgb.map (fun c => (hexByte c).data)).flatten⟩

/-- JavaScript `| 0`: coercion of an integer-valued number to signed 32-bit. -/
def js32 (n : Int) : Int := (n + 2 ^ 31) % 2 ^ 32 - 2 ^ 31

/-- One step of the import hash: `a => ((a << 5) - a + ch) | 0`
(`a` is already a 32-bit value, so `a << 5` is `js32 (a * 32)`). -/
def jsHashStep (a : Int) (c : Nat) : Int := js32 (js32 (a * 32) - a + c)

/-- `dataStr.split("").reduce((a, b) => ((a << 5) - a + b.charCodeAt(0)) | 0, 0)`,
the deterministic string hash used for synthetic identifiers.  (Characters are
modelled by their code points; the source reads UTF-16 units, which agree on
the JSON-serialised predicates at issue.) -/
def jsHash (s : String) : Int := s.data.foldl (fun a ch => jsHashStep a ch.toNat) 0

/-- `(Math.abs(hash) % 10000) + 1`: fold a 32-bit hash into `[1, 10000]`. -/
def foldCmd (h : Int) : Int := ((h.natAbs % 10000 : Nat) : Int) + 1

/-! ## Data model (`resource-pack/types`) -/

/-- An embedded `File`/blob: the metadata the code reads from a binary.
`modelJson` carries the outcome of `JSON.parse` for zip entries that the
merge engine treats as model documents (`none` = parse failure). -/
structure FileMeta where
  fname : String := ""
  tok : Nat := 0
  size : Nat := 0
  width : Nat := 0
  height : Nat := 0
  modelJson : Option Nat := none
deriving DecidableEq

/-- Per-texture animation settings. -/
structure TexAnimation where
  enabled : Bool := false
  frametime : Option Int := some 1
  interpolate : Option Bool := some false
  frames : Option (List Int) := some []
deriving DecidableEq

/-- A texture asset (`TextureData`). -/
structure TextureData where
  name : String
  file : FileMeta := {}
  path : String := ""
  size : Nat := 0
  width : Nat := 0
  height : Nat := 0
  isOptimized : Bool := false
  enabled : Bool := true
  animation : Option TexAnimation := some {}
deriving DecidableEq

/-- A model definition (`ModelData`).  `elements`/`display` are carried
verbatim through export; they are embedded as opaque tokens. -/
structure GeoDescription where
  identifier : String
  textureWidth : Int
  textureHeight : Int
deriving DecidableEq

/-- A per-face UV rectangle of a source (bbmodel) element. -/
structure ElemFace where
  uv : Option (List Int) := none
  texture : Option Int := none
deriving DecidableEq

/-- A leaf element of the generic mesh (bbmodel `elements` entry). -/
structure Element where
  uuid : String
  efrom : Option (List Int) := none
  eto : Option (List Int) := none
  rotation : Option (List Int) := none
  origin : Option (List Int) := none
  inflate : Option Int := none
  faces : List (String × ElemFace) := []
deriving DecidableEq

/-- A per-face UV in the Platform B document:
`{uv : [x0, y0], uv_size : [x1 - x0, y1 - y0]}`. -/
structure CubeUV where
  uv : List Int
  uvSize : List Int
  texture : Option Int := none
deriving DecidableEq

/-- A Platform B cube. -/
structure Cube where
  origin : List Int
  size : List Int
  rotation : Option (List Int) := none
  pivot : Option (List Int) := none
  inflate : Option Int := none
  uv : List (String × CubeUV) := []
deriving DecidableEq

/-- A Platform B bone. -/
structure Bone where
  name : String
  pivot : List Int
  parent : Option String := none
  rotation : Option (List Int) := none
  cubes : List Cube := []
deriving DecidableEq

/-- A Platform B geometry document. -/
structure BedrockGeometry where
  description : GeoDescription
  bones : List Bone
deriving DecidableEq

structure ModelData where
  name : String
  customModelData : Int
  parent : String := "item/generated"
  textures : List (String × String) := []
  elements : Option Nat := none
  display : Option Nat := none
  targetItem : String
  customModelDataFloats : List Int := []
  customModelDataFlags : List Bool := []
  customModelDataStrings : List String := []
  customModelDataColors : List String := []
  bedrockGeometry : Option BedrockGeometry := none
deriving DecidableEq

/-- A font provider variant (`FontProvider`): one record with optional
fields, discriminated by `type` exactly as in the source. -/
structure FontProvider where
  type : String
  file : Option String := none
  fileHandle : Option FileMeta := none
  ascent : Option Int := none
  height : Option Int := none
  chars : Option (List String) := none
  advances : Option (List (String × Int)) := none
  size : Option Int := none
  oversample : Option Int := none
  shift : Option (List Int) := none
  skip : Option String := none
deriving DecidableEq

/-- A custom font (`CustomFont`). -/
structure CustomFont where
  name : String
  file : Option FileMeta := none
  providers : List FontProvider := []
deriving DecidableEq

/-- A custom sound (`CustomSound`). -/
structure CustomSound where
  name : String
  category : String := "master"
  sounds : List String := []
  subtitle : Option String := none
  replace : Option Bool := none
  file : Option FileMeta := none
deriving DecidableEq

/-- A language table (`LanguageFile`); `content` is the key → value record
in insertion order. -/
structure LanguageFile where
  code : String
  lname : String := ""
  content : List (String × String) := []
deriving DecidableEq

/-- A custom particle (`CustomParticle`). -/
structure CustomParticle where
  name : String
  textures : List String := []
  file : Option FileMeta := none
deriving DecidableEq

/-- A shader file (`ShaderFile`). -/
structure ShaderFile where
  name : String
  type : String
  file : Option FileMeta := none
  content : Option String := none
deriving DecidableEq

/-- The in-memory aggregate (`ResourcePack`). -/
structure ResourcePack where
  name : String
  description : String := ""
  version : String := "1.21.6"
  format : Int := 63
  models : List ModelData := []
  textures : List TextureData := []
  fonts : List CustomFont := []
  sounds : List CustomSound := []
  languages : List LanguageFile := []
  particles : List CustomParticle := []
  shaders : List ShaderFile := []
  packIcon : Option FileMeta := none
  author : String := ""
  website : String := ""
  license : String := "All Rights Reserved"
deriving DecidableEq

/-! ## Validation (part_000 lines 239-275) -/

/-- A validation outcome: `isValid` plus the collected error list. -/
structure Validation where
  isValid : Bool
  errors : List String
deriving DecidableEq

/-- `validateModel` (part_000 lines 239-248).  The custom-model-data check
is `!model.customModelData || model.customModelData < 1`, which rejects
both a missing/zero value and any value below one. -/
def validateModel (model : ModelData) : Validation :=
  let errors :=
    (if jsTrim model.name = "" then ["Model name is required"] else []) ++
    (if model.customModelData = 0 ∨ model.customModelData < 1 then
      ["Valid custom model data is required"] else []) ++
    (if jsTrim model.targetItem = "" then ["Target item is required"] else []) ++
    (if model.textures.length = 0 then ["At least one texture is required"] else [])
  { isValid := errors.length = 0, errors := errors }

/-- Push a value onto the list held at key `k` of an insertion-ordered
record of lists (`acc[k] ||= []; acc[k].push(v)`), as done by the grouping
`reduce`s in `validateResourcePack` and `generateZip`. -/
def groupPush {β : Type} (acc : List (String × List β)) (k : String) (v : β) :
    List (String × List β) :=
  if (acc.find? (fun g => decide (g.1 = k))).isSome then
    acc.map (fun g => if g.1 = k then (g.1, g.2 ++ [v]) else g)
  else acc ++ [(k, [v])]

/-- `dataValues.filter((value, index) => dataValues.indexOf(value) !== index)`:
the non-first occurrences of each value, in order. -/
def laterDups (seen : List Int) : List Int → List Int
  | [] => []
  | v :: t =>
    if v ∈ seen then v :: laterDups (seen ++ [v]) t else laterDups (seen ++ [v]) t

/-- JavaScript `Array.prototype.join(sep)` for an arbitrary separator. -/
def joinWith {α : Type} (sep : List α) : List (List α) → List α
  | [] => []
  | [l] => l
  | l :: l' :: ls => l ++ sep ++ joinWith sep (l' :: ls)

/-- `duplicates.join(", ")` rendering for the duplicate-identifier error. -/
def joinComma (l : List String) : String :=
  ⟨joinWith [',', ' '] (l.map (·.data))⟩

/-- `validateResourcePack` (part_000 lines 250-275): pack name/description
present, at least one model, and no duplicate custom-model-data within one
target item.  Note that it inspects no other collection (in particular it
never looks at `pack.fonts`). -/
def validateResourcePack (pack : ResourcePack) : Validation :=
  let targetItemGroups :=
    pack.models.foldl (fun acc m => groupPush acc m.targetItem m.customModelData) []
  let dupErrors := targetItemGroups.foldr (fun g acc =>
    let duplicates := laterDups [] g.2
    (if duplicates.length = 0 then []
     else ["Duplicate custom model data for " ++ g.1 ++ ": " ++
       joinComma (duplicates.map toString)]) ++ acc) []
  let errors :=
    (if jsTrim pack.name = "" then ["Pack name is required"] else []) ++
    (if jsTrim pack.description = "" then ["Pack description is required"] else []) ++
    (if pack.models.length = 0 then ["At least one model is required"] else []) ++
    dupErrors
  { isValid := errors.length = 0, errors := errors }

/-- The `validModels` filter used throughout `generateZip` and the Geyser
mapping (part_000 lines 1268, 1227):
`models.filter((m) => m.customModelData && m.targetItem)` — JavaScript
truthiness drops every model whose identifier is `0` or whose target item
is the empty string. -/
def validModels (models : List ModelData) : List ModelData :=
  models.filter (fun m => !(decide (m.customModelData = 0)) && !(decide (m.targetItem = "")))

/-! ## Platform A item definitions (part_000 lines 1460-1521) -/

/-- The comparator `(a, b) => a.customModelData - b.customModelData` as the
ordering relation it induces.  JavaScript `Array.prototype.sort` is a
stable ascending sort for this comparator; `List.insertionSort` with this
relation is also stable and ascending, and a stable ascending sort is
unique, so the two agree exactly. -/
def cmdLE (a b : ModelData) : Prop := a.customModelData ≤ b.customModelData

instance : DecidableRel cmdLE := fun a b => Int.decLe a.customModelData b.customModelData

instance : IsTotal ModelData cmdLE := ⟨fun a b => Int.le_total a.customModelData b.customModelData⟩

instance : IsTrans ModelData cmdLE := ⟨fun _ _ _ h1 h2 => le_trans h1 h2⟩

/-- `[...models].sort((a, b) => a.customModelData - b.customModelData)`. -/
def sortModels (ms : List ModelData) : List ModelData := List.insertionSort cmdLE ms

/-- `validModels.reduce(...)`: group models by target item, preserving
first-seen key order and per-key push order. -/
def itemGroups (models : List ModelData) : List (String × List ModelData) :=
  models.foldl (fun acc m => groupPush acc m.targetItem m) []

/-- A `minecraft:range_dispatch` item definition (format ≥ 48): the
fallback model plus `entries` of `(threshold, model reference)`. -/
structure DispatchDoc where
  fallback : String
  entries : List (Int × String)
deriving DecidableEq

/-- A legacy `overrides` item model (format < 48): parent, `layer0`
texture, and `(custom_model_data predicate, model reference)` overrides. -/
structure OverrideDoc where
  parent : String
  layer0 : String
  overrides : List (Int × String)
deriving DecidableEq

/-- The dispatch document built for one target item from its
already-sorted group (part_000 lines 1482-1499). -/
def makeDispatchDoc (itemName : String) (sorted : List ModelData) : DispatchDoc :=
  { fallback := "minecraft:item/" ++ itemName
    entries := sorted.map (fun m => (m.customModelData, "minecraft:item/" ++ m.name)) }

/-- The legacy override document built for one target item from its
already-sorted group (part_000 lines 1506-1517). -/
def makeOverrideDoc (itemName : String) (sorted : List ModelData) : OverrideDoc :=
  { parent := "item/generated"
    layer0 := "minecraft:item/" ++ itemName
    overrides := sorted.map (fun m => (m.customModelData, "minecraft:item/" ++ m.name)) }

/-- One emitted item-definition document: the format branch decides the
path and the document shape (part_000 lines 1475-1521). -/
def itemDefinitionFor (format : Int) (itemName : String) (group : List ModelData) :
    String × (DispatchDoc ⊕ OverrideDoc) :=
  let sorted := sortModels group
  if format ≥ 48 then
    ("assets/minecraft/items/" ++ itemName ++ ".json", Sum.inl (makeDispatchDoc itemName sorted))
  else
    ("assets/minecraft/models/item/" ++ itemName ++ ".json", Sum.inr (makeOverrideDoc itemName sorted))

/-- All item-definition documents of one export run. -/
def itemDefinitions (format : Int) (models : List ModelData) :
    List (String × (DispatchDoc ⊕ OverrideDoc)) :=
  (itemGroups models).map (fun g => itemDefinitionFor format g.1 g.2)

/-! ## Geometry converter (`convertToBedrock`, part_000 lines 974-1076) -/

/-- A node of the bbmodel `outliner` tree.  A child is either a string
uuid referencing a leaf element, or a nested group node. -/
inductive OutlinerItem where
  | mk (name : String) (origin : Option (List Int)) (rotation : Option (List Int))
      (children : List (String ⊕ OutlinerItem))

/-- Node name accessor. -/
def OutlinerItem.name : OutlinerItem → String
  | .mk n _ _ _ => n

/-- Node origin accessor. -/
def OutlinerItem.origin : OutlinerItem → Option (List Int)
  | .mk _ o _ _ => o

/-- Node rotation accessor. -/
def OutlinerItem.rotation : OutlinerItem → Option (List Int)
  | .mk _ _ r _ => r

/-- Node children accessor. -/
def OutlinerItem.children : OutlinerItem → List (String ⊕ OutlinerItem)
  | .mk _ _ _ c => c

/-- Placeholder for the `Date.now()` timestamp interpolated into the
default bone name. -/
def dateNowToken : String := "0"

/-- `element.to?.[i] || 0` and `element.from?.[i] || 0`: component access
with a zero default for a missing array or component. -/
def comp (v : Option (List Int)) (i : Nat) : Int :=
  match v with
  | none => 0
  | some xs => xs.getD i 0

/-- The cube built from one leaf element (part_000 lines 1019-1054):
`origin = from`, `size = to - from` component-wise, rotation and pivot only
when the element defines a rotation, inflate only when truthy (nonzero),
and per-face `{uv, uv_size}` rectangles carrying the texture index. -/
def elementToCube (e : Element) : Cube :=
  { origin := e.efrom.getD [0, 0, 0]
    size := [comp e.eto 0 - comp e.efrom 0,
             comp e.eto 1 - comp e.efrom 1,
             comp e.eto 2 - comp e.efrom 2]
    rotation := e.rotation
    pivot := match e.rotation with
      | some _ => some ((e.origin.getD (e.efrom.getD [0, 0, 0])))
      | none => none
    inflate := match e.inflate with
      | some i => if i = 0 then none else some i
      | none => none
    uv := e.faces.foldl (fun acc f =>
      match f.2.uv with
      | some uvRect =>
        acc ++ [(f.1,
          { uv := [uvRect.getD 0 0, uvRect.getD 1 0]
            uvSize := [uvRect.getD 2 0 - uvRect.getD 0 0, uvRect.getD 3 0 - uvRect.getD 1 0]
            texture := f.2.texture })]
      | none => acc) [] }

/-- `processBone` (part_000 lines 997-1060).  It is NOT recursive: a child
that is a string uuid is looked up among the leaf elements and becomes a
cube; a child that is a nested group object never compares equal to any
element uuid (`e.uuid === childUuid` is a strict equality between a string
and an object) and is silently dropped.  The `parentName` parameter is
declared but the only call site of the function passes no argument for it. -/
def processBone (elements : List Element) (parentName : Option String)
    (item : OutlinerItem) : Bone :=
  { name := if item.name = "" then "bone_" ++ dateNowToken else item.name
    pivot := item.origin.getD [0, 0, 0]
    parent := match parentName with
      | some p => if p = "" then none else some p
      | none => none
    rotation := item.rotation
    cubes := item.children.foldl (fun acc c =>
      match c with
      | Sum.inl uuid =>
        match elements.find? (fun e => decide (e.uuid = uuid)) with
        | some e => acc ++ [elementToCube e]
        | none => acc
      | Sum.inr _ => acc) [] }

/-- `convertToBedrock` (part_000 lines 974-1076): builds the geometry
description and maps `processBone` over the TOP-LEVEL outliner items only
(`bbmodelData.outliner.forEach((item) => processBone(item))`). -/
def convertToBedrock (modelName : String) (resolution : Option (Int × Int))
    (outliner : List OutlinerItem) (elements : List Element) : BedrockGeometry :=
  { description :=
      { identifier := "geometry." ++ modelName
        textureWidth := jsOrNum (resolution.map Prod.fst) 16
        textureHeight := jsOrNum (resolution.map Prod.snd) 16 }
    bones := outliner.map (fun item => processBone elements none item) }

/-! ## Import predicate decoding (part_000 lines 2318-2343) -/

/-- An object-shaped `custom_model_data` predicate: the optional
`floats`/`flags`/`strings`/`colors` arrays (absent field = key missing in
the JSON object). -/
structure CmdObject where
  floats : Option (List Int) := none
  flags : Option (List Bool) := none
  strings : Option (List String) := none
  colors : Option (List (List Nat)) := none
deriving DecidableEq

/-- A decoded `custom_model_data` predicate value: a plain number or an
object. -/
inductive CmdPredicate where
  | num (n : Int)
  | obj (o : CmdObject)
deriving DecidableEq

/-- Minimal JSON string escaping (`"` and `\`), as done by
`JSON.stringify` on the string members of a predicate. -/
def jsonEscapeChar (c : Char) : List Char :=
  if c = '"' then ['\\', '"']
  else if c = '\\' then ['\\', '\\']
  else if c = '\n' then ['\\', 'n']
  else if c = '\t' then ['\\', 't']
  else if c = '\r' then ['\\', 'r']
  else [c]

/-- `JSON.stringify` of a string value. -/
def jsonStr (s : String) : String :=
  "\"" ++ ⟨(s.data.map jsonEscapeChar).flatten⟩ ++ "\""

/-- `JSON.stringify` of an array given a serializer for its members. -/
def jsonArr {α : Type} (f : α → String) (l : List α) : String :=
  "[" ++ joinComma' (l.map f) ++ "]"
where
  /-- `join(",")` (no space, as `JSON.stringify` produces). -/
  joinComma' (l : List String) : String := ⟨joinWith [','] (l.map (·.data))⟩

/-- `JSON.stringify(cmd)` for an object predicate, with the fields in the
order the exporter writes and the importer reads them
(`floats`, `flags`, `strings`, `colors`); absent fields are omitted. -/
def serializeCmdObject (o : CmdObject) : String :=
  let parts :=
    (match o.floats with
     | some fs => ["\"floats\":" ++ jsonArr toString fs]
     | none => []) ++
    (match o.flags with
     | some fs => ["\"flags\":" ++ jsonArr (fun b => if b then "true" else "false") fs]
     | none => []) ++
    (match o.strings with
     | some ss => ["\"strings\":" ++ jsonArr jsonStr ss]
     | none => []) ++
    (match o.colors with
     | some cs => ["\"colors\":" ++ jsonArr (jsonArr (fun (n : Nat) => toString n)) cs]
     | none => [])
  "\x7b" ++ (⟨joinWith [','] (parts.map (·.data))⟩ : String) ++ "\x7d"

/-- The predicate-decoding step of the Platform A import (part_000 lines
2318-2343), applied to the freshly created model record:
a plain number becomes `customModelData` directly; an object predicate
copies `floats`/`flags`/`strings` verbatim, converts each `colors` entry
to a `#`-prefixed hex string, and then replaces `customModelData` with the
hash of the serialised predicate folded into `[1, 10000]`. -/
def applyCmdPredicate (cmd : CmdPredicate) (m : ModelData) : ModelData :=
  match cmd with
  | .num n => { m with customModelData := n }
  | .obj o =>
    let m := match o.floats with
      | some fs => { m with customModelDataFloats := fs }
      | none => m
    let m := match o.flags with
      | some fs => { m with customModelDataFlags := fs }
      | none => m
    let m := match o.strings with
      | some ss => { m with customModelDataStrings := ss }
      | none => m
    let m := match o.colors with
      | some cs => { m with customModelDataColors := cs.map hexColor }
      | none => m
    { m with customModelData := foldCmd (jsHash (serializeCmdObject o)) }

/-! ## Texture-reference resolver (part_000 lines 2254-2313) -/

/-- `texturePath.replace(/^minecraft:/, "")`. -/
def stripNamespace (s : String) : String :=
  if strStarts s "minecraft:" then strDrop s 10 else s

/-- `.replace(/^item\//, "").replace(/^block\//, "").replace(/^entity\//, "")`
— the three leading type-folder strips, applied in sequence. -/
def stripTypeFolders (s : String) : String :=
  let s1 := if strStarts s "item/" then strDrop s 5 else s
  let s2 := if strStarts s1 "block/" then strDrop s1 6 else s1
  if strStarts s2 "entity/" then strDrop s2 7 else s2

/-- Result of resolving one texture reference: which strategy fired
(1 = exact path, 2 = stripped type folder, 3 = suffix match, 0 = none),
whether a candidate was found, and the layer name that gets recorded. -/
structure ResolveResult where
  strategy : Nat
  found : Bool
  name : String
deriving DecidableEq

/-- The texture-reference resolution chain of the Platform A import
(part_000 lines 2254-2313).  `keys` is `Object.keys(textureMap)` in
insertion order.  Strategy 1: the namespace-stripped reference is an index
key; strategy 2: after also stripping a type folder, `item/<ref>` or
`<ref>` is a key; strategy 3: some key shares the final path segment.
When nothing matches, the cleaned reference itself is recorded (with a
console warning; the import continues). -/
def resolveTexture (keys : List String) (ref : String) : ResolveResult :=
  if stripNamespace ref ∈ keys then
    ⟨1, true, stripTypeFolders (stripNamespace ref)⟩
  else if ("item/" ++ stripTypeFolders (stripNamespace ref)) ∈ keys then
    ⟨2, true, stripTypeFolders (stripNamespace ref)⟩
  else if stripTypeFolders (stripNamespace ref) ∈ keys then
    ⟨2, true, stripTypeFolders (stripNamespace ref)⟩
  else
    match keys.find? (fun k =>
        strEnds k ("/" ++ lastSeg (stripTypeFolders (stripNamespace ref))) ||
        decide (k = lastSeg (stripTypeFolders (stripNamespace ref))) ||
        decide (k = "item/" ++ lastSeg (stripTypeFolders (stripNamespace ref)))) with
    | some k => ⟨3, true, stripTypeFolders k⟩
    | none => ⟨0, false, stripTypeFolders (stripNamespace ref)⟩

/-- The texture-layer loop of the model import: every string-valued layer
reference is resolved and recorded on the layer map of the model (found or
not). -/
def resolveLayerMap (keys : List String) (layers : List (String × String)) :
    List (String × String) :=
  layers.map (fun lv => (lv.1, (resolveTexture keys lv.2).name))

/-! ## Merge engine (`executeMerge`, part_000 lines 1871-1941) -/

/-- A source package for the merge: its display name (zip file name minus
`.zip`) and its archive entries in index order, each a path plus content. -/
structure MergePack where
  name : String
  entries : List (String × FileMeta)
deriving DecidableEq

/-- A conflict resolution mode. -/
inductive Resolution where
  | overwrite
  | skip
  | rename
deriving DecidableEq

/-- A merge conflict as configured by the user: the conflicting path and
the chosen resolution. -/
structure MergeConflict where
  path : String
  resolution : Resolution
deriving DecidableEq

/-- One archive entry processed by the merge scan (part_000 lines
1886-1918).  The accumulator is `(mergedTextures, mergedModels)`, both
insertion-ordered maps.  A `textures/` path consults the conflict list:
`skip` drops the entry when the path is already present, `rename` stores
it under the renamed path, `overwrite` (and the no-conflict case) stores
it under its own path.  A `models/` path is parsed and stored in the model
map when the parse succeeds. -/
def mergeScanStep (conflicts : List MergeConflict) (packName : String)
    (acc : List (String × FileMeta) × List (String × Nat)) (e : String × FileMeta) :
    List (String × FileMeta) × List (String × Nat) :=
  if strIncludes e.1 "textures/" then
    match conflicts.find? (fun c => decide (c.path = e.1)) with
    | some c =>
      match c.resolution with
      | .skip =>
        if (acc.1.find? (fun kv => decide (kv.1 = e.1))).isSome then acc
        else (jsMapSet acc.1 e.1 e.2, acc.2)
      | .rename => (jsMapSet acc.1 (renamePath packName e.1) e.2, acc.2)
      | .overwrite => (jsMapSet acc.1 e.1 e.2, acc.2)
    | none => (jsMapSet acc.1 e.1 e.2, acc.2)
  else if strIncludes e.1 "models/" then
    match e.2.modelJson with
    | some md => (acc.1, jsMapSet acc.2 e.1 md)
    | none => acc
  else acc

/-- The full sequential scan over all packages (packages in upload order,
entries in archive index order). -/
def mergeScan (conflicts : List MergeConflict) (packs : List MergePack) :
    List (String × FileMeta) × List (String × Nat) :=
  packs.foldl (fun acc pk => pk.entries.foldl (mergeScanStep conflicts pk.name) acc) ([], [])

/-- The resolved texture map of a merge run. -/
def executeMergeTextures (conflicts : List MergeConflict) (packs : List MergePack) :
    List (String × FileMeta) :=
  (mergeScan conflicts packs).1

/-- The `TextureData` that `addTexture` (part_000 lines 746-778) builds
for one merged entry: the `File` was created with name
`newPath.split("/").pop() || "texture.png"`, and `addTexture` strips its
extension and files it under `textures/item/`. -/
def mkMergedTexture (kv : String × FileMeta) : TextureData :=
  let fname := lastSegOr kv.1 "texture.png"
  let base := stripFileExt fname
  { name := base
    file := { kv.2 with fname := fname }
    path := "textures/item/" ++ base ++ ".png"
    size := kv.2.size
    width := kv.2.width
    height := kv.2.height
    isOptimized := false
    enabled := true
    animation := some { enabled := false, frametime := some 1,
                        interpolate := some false, frames := some [] } }

/-- The state update of `addTexture`: append the new texture to the
texture collection of the pack (no other field is touched). -/
def addTexture (rp : ResourcePack) (t : TextureData) : ResourcePack :=
  { rp with textures := rp.textures ++ [t] }

/-- The effect of `executeMerge` on the `AssetModel` (part_000 lines
1871-1941): scan all packages, then `addTexture` each resolved texture in
map order.  The parsed model documents (`mergedModels`, the second
component of the scan) are never read again — the source collects them
and drops them. -/
def executeMerge (conflicts : List MergeConflict) (packs : List MergePack)
    (rp : ResourcePack) : ResourcePack :=
  (executeMergeTextures conflicts packs).foldl
    (fun pack kv => addTexture pack (mkMergedTexture kv)) rp

/-! ## Export pipeline (`generateZip`, part_000 lines 1253-1806) -/

/-- `s.toLowerCase()` (ASCII, as used on file extensions). -/
def toLowerStr (s : String) : String := ⟨s.data.map Char.toLower⟩

/-- `s.replace(/^.*\//, "")`: everything after the last slash (unchanged
when there is no slash). -/
def afterLastSlash (s : String) : String := ⟨(splitOnChar '/' s.data).getLastD []⟩

/-- Largest index `d` of a `.` in `tail` usable as the `\.` of
`(.+)\.(.+)$`: at least one character before and after it. -/
def lastDotPosBetween (tail : List Char) : Option Nat :=
  ((List.range tail.length).filter (fun d =>
    decide (tail.getD d ' ' = '.') && decide (1 ≤ d) && decide (d + 1 < tail.length))).getLast?

/-- Positions `j ≥ 1` in `tail` where `.png` occurs (candidates for the
`\.png` of the unanchored greedy `(.+)\.png`). -/
def pngPositions (tail : List Char) : List Nat :=
  (List.range (tail.length + 1)).filter (fun j => decide (1 ≤ j) && subAt tail ".png".data j)

/-- `f.match(/minecraft:font\/(.+)\.png/)`: search for the first literal
occurrence after which `(.+)\.png` can match; the greedy group runs to the
last `.png` occurrence. -/
def fontPngCapture (f : String) : Option String :=
  let hay := f.data
  let lit := "minecraft:font/".data
  match (List.range (hay.length + 1)).find? (fun i =>
      subAt hay lit i && decide ((pngPositions (hay.drop (i + lit.length))) ≠ [])) with
  | none => none
  | some i =>
    let tail := hay.drop (i + lit.length)
    match (pngPositions tail).getLast? with
    | some j => some ⟨tail.take j⟩
    | none => none

/-- `f.match(/minecraft:font\/(.+)\.(.+)$/)`: search for the first literal
occurrence after which `(.+)\.(.+)$` can match; the greedy first group
runs to the last dot that leaves a nonempty remainder. -/
def fontTtfCapture (f : String) : Option (String × String) :=
  let hay := f.data
  let lit := "minecraft:font/".data
  match (List.range (hay.length + 1)).find? (fun i =>
      subAt hay lit i && decide ((lastDotPosBetween (hay.drop (i + lit.length))).isSome = true)) with
  | none => none
  | some i =>
    let tail := hay.drop (i + lit.length)
    match lastDotPosBetween tail with
    | some d => some (⟨tail.take d⟩, ⟨tail.drop (d + 1)⟩)
    | none => none

/-- The serialised form of one font provider as written into the font
JSON document (part_000 lines 1576-1646). -/
structure ProviderJson where
  type : String
  file : Option String := none
  ascent : Option Int := none
  height : Option Int := none
  chars : Option (List String) := none
  advances : Option (List (String × Int)) := none
  size : Option Int := none
  oversample : Option Int := none
  shift : Option (List Int) := none
  skip : Option String := none
  hexFile : Option String := none
  sizeOverrides : Option (List Int) := none
deriving DecidableEq

/-- The file-name resolution of the bitmap branch (part_000 lines 1580-1587):
an uploaded handle wins, else a capture from the stored reference, else
the own name of the font. -/
def bitmapFilename (font : CustomFont) (p : FontProvider) : String :=
  match p.fileHandle with
  | some h => stripFileExt h.fname
  | none =>
    match p.file with
    | some f =>
      if f = "" then font.name
      else match fontPngCapture f with
        | some m => m
        | none => font.name
    | none => font.name

/-- The file-name/extension resolution of the ttf branch (part_000 lines
1602-1620). -/
def ttfFilenameExt (font : CustomFont) (p : FontProvider) : String × String :=
  match p.fileHandle with
  | some h => (stripFileExt h.fname, jsOrStr (some (toLowerStr (fileExt h.fname))) "ttf")
  | none =>
    match p.file with
    | some f =>
      if f = "" then
        ttfFallback font
      else match fontTtfCapture f with
        | some m => m
        | none => (font.name, "ttf")
    | none => ttfFallback font
where
  /-- The `font.file` fallback: the extension is adopted only when it is
  `ttf` or `otf`. -/
  ttfFallback (font : CustomFont) : String × String :=
    match font.file with
    | some ff =>
      let e := toLowerStr (fileExt ff.fname)
      if e = "ttf" ∨ e = "otf" then (font.name, e) else (font.name, "ttf")
    | none => (font.name, "ttf")

/-- The provider record written into the font document, by provider type
(part_000 lines 1576-1646).  Bitmap: `file`, `ascent || 8`, `height || 8`
and the chars when present.  Ttf: `file`, `size || 11`, `oversample || 1`,
plus truthy `shift`/`skip`.  Space: `advances || an empty record`.
Unihex: `hex_file` with its default and empty `size_overrides`.  Unknown
types produce only the `type` field. -/
def makeProviderJson (font : CustomFont) (p : FontProvider) : ProviderJson :=
  if p.type = "bitmap" then
    { type := p.type
      file := some ("minecraft:font/" ++ bitmapFilename font p ++ ".png")
      ascent := some (jsOrNum p.ascent 8)
      height := some (jsOrNum p.height 8)
      chars := p.chars }
  else if p.type = "ttf" then
    { type := p.type
      file := some ("minecraft:font/" ++ (ttfFilenameExt font p).1 ++ "." ++ (ttfFilenameExt font p).2)
      size := some (jsOrNum p.size 11)
      oversample := some (jsOrNum p.oversample 1)
      shift := p.shift
      skip := match p.skip with
        | some s => if s = "" then none else some s
        | none => none }
  else if p.type = "space" then
    { type := p.type, advances := some (p.advances.getD []) }
  else if p.type = "unihex" then
    { type := p.type
      hexFile := some (jsOrStr p.file "minecraft:font/unifont.hex")
      sizeOverrides := some [] }
  else
    { type := p.type }

/-- The model document written per model (part_000 lines 1530-1548). -/
structure ModelJson where
  parent : String
  textures : List (String × String)
  elements : Option Nat := none
  display : Option Nat := none
deriving DecidableEq

/-- The animation sidecar (part_000 lines 1559-1565): only the fields that
are set are written. -/
structure AnimMcmeta where
  frametime : Option Int := none
  interpolate : Option Bool := none
  frames : Option (List Int) := none
deriving DecidableEq

/-- One entry of the Java `sounds.json` (converters.ts lines 5-21). -/
structure JavaSound where
  category : String
  sounds : List String
  subtitle : Option String := none
  replace : Option Bool := none
deriving DecidableEq

/-- One entry of the Bedrock `sound_definitions.json`
(converters.ts lines 23-43); `sounds` entries already carry the
`sounds/` prefix. -/
structure BedrockSound where
  category : String
  sounds : List String
  subtitle : Option String := none
deriving DecidableEq

/-- One Geyser mapping item (part_000 lines 1238-1247). -/
structure GeyserItem where
  customModelData : Int
  displayName : String
  icon : String
  allowOffhand : Bool := true
  textureSize : Int := 16
  creativeCategory : Int := 1
  creativeGroup : String := "custom_items"
  tags : List String := ["custom_item"]
deriving DecidableEq

/-- The Bedrock manifest document (part_000 lines 1276-1292). -/
structure Manifest where
  name : String
  description : String
  uuid : String
  moduleUuid : String
deriving DecidableEq

/-- The Bedrock attachable document (part_000 lines 1316-1336). -/
structure Attachable where
  identifier : String
  texture : String
  geometry : String
deriving DecidableEq

/-- The data interpolated into the Java `README.md` template (part_000
lines 1397-1456); the surrounding Markdown text is fixed. -/
structure JavaReadme where
  name : String
  version : String
  format : Int
  mcVersion : String
  description : String
  author : String
  website : String
  license : String
  modelRefs : List (String × String × Int)
  textureCount : Nat
  fontCount : Nat
  soundCount : Nat
  particleCount : Nat
  shaderCount : Nat
  now : String
deriving DecidableEq

/-- The data interpolated into the Bedrock `README.txt` template (part_000
lines 1350-1372). -/
structure BedrockReadme where
  name : String
  description : String
  models : List (String × Int)
  totalModels : Nat
  totalTextures : Nat
  now : String
deriving DecidableEq

/-- The content of one zip entry, by document kind. -/
inductive ZData where
  | bin (f : FileMeta)
  | text (s : String)
  | packMeta (format : Int) (description : String)
  | readmeJava (r : JavaReadme)
  | readmeBedrock (r : BedrockReadme)
  | dispatch (d : DispatchDoc)
  | overrideList (o : OverrideDoc)
  | modelDoc (m : ModelJson)
  | animMeta (a : AnimMcmeta)
  | fontDoc (providers : List ProviderJson)
  | soundsJava (s : List (String × JavaSound))
  | soundsBedrock (s : List (String × BedrockSound))
  | langJava (content : List (String × String))
  | langBedrock (s : String)
  | particleJava (textures : List String)
  | particleBedrock (identifier : String) (texture : String)
  | geometryDoc (g : BedrockGeometry)
  | attachableDoc (a : Attachable)
  | manifestDoc (m : Manifest)
  | geyser (items : List (String × List GeyserItem))
deriving DecidableEq

/-- `getMinecraftVersion` (part_000 lines 1200-1219). -/
def getMinecraftVersion (format : Int) : String :=
  if format = 63 then "1.21.6+"
  else if format = 48 then "1.21.4-1.21.5"
  else if format = 34 then "1.21.0-1.21.3"
  else if format = 32 then "1.20.5-1.20.6"
  else if format = 22 then "1.20.3-1.20.4"
  else if format = 18 then "1.20.0-1.20.2"
  else if format = 15 then "1.19.4"
  else if format = 13 then "1.19.3"
  else if format = 12 then "1.19.0-1.19.2"
  else if format = 9 then "1.18.0-1.18.2"
  else if format = 8 then "1.17.0-1.17.1"
  else if format = 7 then "1.16.2-1.16.5"
  else if format = 6 then "1.16.0-1.16.1"
  else if format = 5 then "1.15.0-1.15.2"
  else if format = 4 then "1.13.0-1.14.4"
  else "Unknown"

/-- The icon name of a Geyser item (part_000 line 1236): the first texture
reference with directories and extension stripped, else the model name. -/
def geyserIcon (m : ModelData) : String :=
  match m.textures.head? with
  | none => m.name
  | some kv => jsOrStr (some (stripFileExt (afterLastSlash kv.2))) m.name

/-- `generateGeyserMapping` (part_000 lines 1221-1251). -/
def generateGeyserMapping (models : List ModelData) : List (String × List GeyserItem) :=
  (validModels models).foldl (fun acc m =>
    groupPush acc ("minecraft:" ++ m.targetItem)
      { customModelData := m.customModelData, displayName := m.name, icon := geyserIcon m }) []

/-- `convertSoundsToJava` (converters.ts lines 5-21): keyed assignment
into `sounds.json`; a falsy subtitle is omitted. -/
def convertSoundsToJava (sounds : List CustomSound) : List (String × JavaSound) :=
  sounds.foldl (fun acc s =>
    jsMapSet acc s.name
      { category := s.category
        sounds := s.sounds
        subtitle := match s.subtitle with
          | some t => if t = "" then none else some t
          | none => none
        replace := s.replace }) []

/-- `convertSoundsToBedrock` (converters.ts lines 23-43). -/
def convertSoundsToBedrock (sounds : List CustomSound) : List (String × BedrockSound) :=
  sounds.foldl (fun acc s =>
    jsMapSet acc s.name
      { category := s.category
        sounds := s.sounds.map (fun x => "sounds/" ++ x)
        subtitle := match s.subtitle with
          | some t => if t = "" then none else some t
          | none => none }) []

/-- `convertLangToJava` (converters.ts lines 47-49): the identity. -/
def convertLangToJava (content : List (String × String)) : List (String × String) := content

/-- `convertLangToBedrock` (converters.ts lines 51-55):
`Object.entries(content).map(([k, v]) => k + "=" + v).join("\n")`. -/
def convertLangToBedrock (content : List (String × String)) : String :=
  ⟨joinWithChar '\n' (content.map (fun kv => kv.1.data ++ '=' :: kv.2.data))⟩

/-- The Bedrock language-code rewrite (part_000 line 1690):
`code.replace(/_(\w+)/, (m, p1) => "_" + p1.toUpperCase())`. -/
def isWordChar (c : Char) : Bool := c.isAlphanum || c = '_'

/-- See `isWordChar`; upper-cases the word after the first underscore. -/
def bedrockLangCode (code : String) : String :=
  match charIndexOf code.data '_' with
  | none => code
  | some i =>
    let tail := code.data.drop (i + 1)
    ⟨code.data.take i ++ '_' :: (tail.takeWhile isWordChar).map Char.toUpper ++
      tail.dropWhile isWordChar⟩

/-- The side files written while serialising one font provider (bitmap
textures under `textures/font/`, ttf/otf sources under `font/`), part_000
lines 1594-1599 and 1628-1636. -/
def providerSideFiles (font : CustomFont) (p : FontProvider) : List (String × ZData) :=
  if p.type = "bitmap" then
    match p.fileHandle with
    | some h => [("assets/minecraft/textures/font/" ++ h.fname, .bin h)]
    | none =>
      match font.file with
      | some ff =>
        if strEnds (toLowerStr ff.fname) ".png" then
          [("assets/minecraft/textures/font/" ++ bitmapFilename font p ++ ".png", .bin ff)]
        else []
      | none => []
  else if p.type = "ttf" then
    match p.fileHandle with
    | some h => [("assets/minecraft/font/" ++ h.fname, .bin h)]
    | none =>
      match font.file with
      | some ff =>
        let e := toLowerStr (fileExt ff.fname)
        if e = "ttf" ∨ e = "otf" then
          [("assets/minecraft/font/" ++ (ttfFilenameExt font p).1 ++ "." ++
            (ttfFilenameExt font p).2, .bin ff)]
        else []
      | none => []
  else []

/-- The zip entries of one font: side files (in provider order) followed
by the font definition document (part_000 lines 1574-1651). -/
def fontZipEntries (font : CustomFont) : List (String × ZData) :=
  (font.providers.foldl (fun acc p => acc ++ providerSideFiles font p) []) ++
  [("assets/minecraft/font/" ++ font.name ++ ".json",
    .fontDoc (font.providers.map (makeProviderJson font)))]

/-- The texture entries of the Java branch (part_000 lines 1554-1568):
a fixed `textures/item/` path plus an animation sidecar for textures with
animation enabled, carrying only the fields that are set. -/
def javaTextureEntries (textures : List TextureData) : List (String × ZData) :=
  textures.foldl (fun acc t =>
    let base := "assets/minecraft/textures/item/" ++ stripFileExt t.name
    acc ++ [(base ++ ".png", .bin t.file)] ++
    (match t.animation with
     | some a =>
       if a.enabled then
         [(base ++ ".png.mcmeta", .animMeta
           { frametime := a.frametime
             interpolate := a.interpolate
             frames := match a.frames with
               | some fs => if 0 < fs.length then some fs else none
               | none => none })]
       else []
     | none => [])) []

/-- The sound entries (part_000 lines 1655-1679), inside the Java branch;
the inner `packEdition` test is carried over verbatim. -/
def soundEntries (edition : String) (sounds : List CustomSound) : List (String × ZData) :=
  if sounds.length = 0 then []
  else if edition = "bedrock" then
    [("sounds/sound_definitions.json", .soundsBedrock (convertSoundsToBedrock sounds))] ++
    sounds.foldl (fun acc s =>
      match s.file with
      | some f => acc ++ [("sounds/" ++ s.name ++ "." ++ fileExt f.fname, .bin f)]
      | none => acc) []
  else
    [("assets/minecraft/sounds.json", .soundsJava (convertSoundsToJava sounds))] ++
    sounds.foldl (fun acc s =>
      match s.file with
      | some f => acc ++ [("assets/minecraft/sounds/" ++ s.name ++ "." ++ fileExt f.fname, .bin f)]
      | none => acc) []

/-- The language entries (part_000 lines 1682-1697). -/
def langEntries (edition : String) (languages : List LanguageFile) : List (String × ZData) :=
  if languages.length = 0 then []
  else languages.foldl (fun acc l =>
    if edition = "bedrock" then
      acc ++ [("texts/" ++ bedrockLangCode l.code ++ ".lang",
        .langBedrock (convertLangToBedrock l.content))]
    else
      acc ++ [("assets/minecraft/lang/" ++ l.code ++ ".json",
        .langJava (convertLangToJava l.content))]) []

/-- The particle entries (part_000 lines 1700-1737). -/
def particleEntries (edition : String) (particles : List CustomParticle) : List (String × ZData) :=
  if particles.length = 0 then []
  else particles.foldl (fun acc p =>
    if edition = "bedrock" then
      acc ++
      (match p.file with
       | some f => [("textures/particle/" ++ p.name ++ ".png", .bin f)]
       | none => []) ++
      [("particles/" ++ p.name ++ ".json",
        .particleBedrock ("custom:" ++ p.name) ("textures/particle/" ++ p.name))]
    else
      acc ++
      [("assets/minecraft/particles/" ++ p.name ++ ".json",
        .particleJava (p.textures.map (fun t => "minecraft:particle/" ++ t)))] ++
      (match p.file with
       | some f => [("assets/minecraft/textures/particle/" ++ p.name ++ ".png", .bin f)]
       | none => [])) []

/-- The shader entries (part_000 lines 1740-1766). -/
def shaderEntries (edition : String) (shaders : List ShaderFile) : List (String × ZData) :=
  if shaders.length = 0 then []
  else if edition = "java" then
    shaders.foldl (fun acc s =>
      let extension := if s.type = "program" then ".json"
        else if s.type = "vertex" then ".vsh" else ".fsh"
      let folder := if s.type = "program" then "program" else "core"
      match s.file with
      | some f =>
        acc ++ [("assets/minecraft/shaders/" ++ folder ++ "/" ++ s.name ++ extension, .bin f)]
      | none =>
        match s.content with
        | some c =>
          acc ++ [("assets/minecraft/shaders/" ++ folder ++ "/" ++ s.name ++ extension, .text c)]
        | none => acc) []
  else
    shaders.foldl (fun acc s =>
      match s.file with
      | some f =>
        acc ++ [("shaders/glsl/" ++ s.name ++ "." ++ jsOrStr (some (fileExt f.fname)) "bin",
          .bin f)]
      | none => acc) []

/-- The model-file entries of the Java branch (part_000 lines 1526-1549). -/
def javaModelEntries (models : List ModelData) : List (String × ZData) :=
  models.foldl (fun acc m =>
    acc ++ [("assets/minecraft/models/item/" ++ m.name ++ ".json",
      .modelDoc
        { parent := jsOrStr (some m.parent) "item/generated"
          textures := m.textures.map (fun lv => (lv.1, "minecraft:item/" ++ lv.2))
          elements := m.elements
          display := m.display })]) []

/-- The item-definition entries of the Java branch, reusing
`itemDefinitions` (part_000 lines 1462-1521). -/
def javaItemDefEntries (format : Int) (models : List ModelData) : List (String × ZData) :=
  (itemDefinitions format models).map (fun e =>
    (e.1, match e.2 with
          | Sum.inl d => ZData.dispatch d
          | Sum.inr o => ZData.overrideList o))

/-- The Java branch of `generateZip` (part_000 lines 1380-1771), in write
order: pack.mcmeta, icon, README, item definitions, model documents,
textures (+ animation sidecars), fonts, sounds, languages, particles,
shaders and the Geyser mapping. -/
def javaZipEntries (now edition : String) (rp : ResourcePack) : List (String × ZData) :=
  let vm := validModels rp.models
  [("pack.mcmeta", .packMeta rp.format (jsOrStr (some rp.description) "Generated Resource Pack"))] ++
  (match rp.packIcon with
   | some icon => [("pack.png", .bin icon)]
   | none => []) ++
  [("README.md", .readmeJava
    { name := rp.name
      version := rp.version
      format := rp.format
      mcVersion := getMinecraftVersion rp.format
      description := rp.description
      author := rp.author
      website := rp.website
      license := rp.license
      modelRefs := vm.map (fun m => (m.name, m.targetItem, m.customModelData))
      textureCount := rp.textures.length
      fontCount := rp.fonts.length
      soundCount := rp.sounds.length
      particleCount := rp.particles.length
      shaderCount := rp.shaders.length
      now := now })] ++
  javaItemDefEntries rp.format vm ++
  javaModelEntries vm ++
  javaTextureEntries rp.textures ++
  (rp.fonts.foldl (fun acc f => acc ++ fontZipEntries f) []) ++
  soundEntries edition rp.sounds ++
  langEntries edition rp.languages ++
  particleEntries edition rp.particles ++
  shaderEntries edition rp.shaders ++
  [("geyser_mappings.json", .geyser (generateGeyserMapping rp.models))]

/-- The Bedrock branch of `generateZip` (part_000 lines 1271-1378):
manifest, icon, per-model geometry/attachable documents (models without a
cached geometry are skipped), textures under `textures/entity/`, the
README and the Geyser mapping. -/
def bedrockZipEntries (uuidA uuidB now : String) (rp : ResourcePack) : List (String × ZData) :=
  let vm := validModels rp.models
  [("manifest.json", .manifestDoc
    { name := rp.name, description := rp.description, uuid := uuidA, moduleUuid := uuidB })] ++
  (match rp.packIcon with
   | some icon => [("pack_icon.png", .bin icon)]
   | none => []) ++
  (vm.foldl (fun acc m =>
    match m.bedrockGeometry with
    | some g =>
      acc ++ [("models/entity/" ++ m.name ++ ".geo.json", .geometryDoc g),
              (m.name ++ ".attachable.json", .attachableDoc
                { identifier := "custom:" ++ m.name
                  texture := "textures/entity/" ++ m.name
                  geometry := "geometry." ++ m.name })]
    | none => acc) []) ++
  (rp.textures.foldl (fun acc t =>
    acc ++ [("textures/entity/" ++ stripFileExt t.name ++ ".png", .bin t.file)]) []) ++
  [("README.txt", .readmeBedrock
    { name := rp.name
      description := rp.description
      models := vm.map (fun m => (m.name, m.customModelData))
      totalModels := vm.length
      totalTextures := rp.textures.length
      now := now })] ++
  [("geyser_mappings.json", .geyser (generateGeyserMapping rp.models))]

/-- All zip entries of one export run, by edition. -/
def generateZipEntries (uuidA uuidB now edition : String) (rp : ResourcePack) :
    List (String × ZData) :=
  if edition = "bedrock" then bedrockZipEntries uuidA uuidB now rp
  else javaZipEntries now edition rp

/-- The component state that `generateZip` can reach: the asset model,
the selected edition and the processing indicators it mutates via
`setIsProcessing`/`setProgress`. -/
structure AppState where
  resourcePack : ResourcePack
  packEdition : String := "java"
  isProcessing : Bool := false
  progress : Nat := 0
deriving DecidableEq

/-- `generateZip` as a state transformer (part_000 lines 1253-1806): it
validates, and either aborts (no archive) or produces the archive
entries.  In both branches the only state it writes is the processing
indicators — the `resourcePack` field is read, never set (`uuidA`,
`uuidB`, `now` stand for the `uuidv4()`/`Date` calls). -/
def generateZip (uuidA uuidB now : String) (st : AppState) :
    AppState × Option (List (String × ZData)) :=
  if (validateResourcePack st.resourcePack).isValid = false then
    ({ st with isProcessing := false, progress := 0 }, none)
  else
    ({ st with isProcessing := false, progress := 0 },
     some (generateZipEntries uuidA uuidB now st.packEdition st.resourcePack))

/-! ## Bedrock `.lang` decoding (part_001 lines 44-67) -/

/-- One line of `convertBedrockLangToInternal`: trim, drop empty and
comment lines, find the first `=`; a positive index splits the line into a
trimmed key and value recorded by keyed assignment. -/
def parseLangLine (acc : List (String × String)) (line : List Char) :
    List (String × String) :=
  let t := jsTrimL line
  if t.isEmpty then acc
  else if t.head? = some '#' then acc
  else if t.take 2 = ['/', '/'] then acc
  else
    match charIndexOf t '=' with
    | none => acc
    | some i =>
      if 0 < i then jsMapSet acc ⟨jsTrimL (t.take i)⟩ ⟨jsTrimL (t.drop (i + 1))⟩
      else acc

/-- `convertBedrockLangToInternal` (part_001 lines 44-67): split on
newlines and fold every parsable `key=value` line into the content
record. -/
def convertBedrockLangToInternal (langContent : String) (code lname : String) :
    LanguageFile :=
  { code := code
    lname := lname
    content := (splitOnChar '\n' langContent.data).foldl parseLangLine [] }

/-! ## Concrete inputs used by the claim theorems -/

/-- A model whose primary identifier is zero (the own documentation
of the repository advertises this as valid: "custom_model_data: 0 — Now
valid!", part_003 lines 5-22 and 224). -/
def zeroModel : ModelData :=
  { name := "base_override"
    customModelData := 0
    targetItem := "stick"
    textures := [("layer0", "gem")] }

/-- A pack containing only `zeroModel`. -/
def zeroPack : ResourcePack :=
  { name := "pack", description := "desc", models := [zeroModel] }

/-- A nested outliner group: `root` contains the group `inner`, which
references the leaf element `cube1`. -/
def innerItem : OutlinerItem := .mk "inner" (some [1, 2, 3]) none [Sum.inl "cube1"]

/-- See `innerItem`. -/
def rootItem : OutlinerItem := .mk "root" none none [Sum.inr innerItem]

/-- The leaf element referenced by `innerItem`. -/
def cubeElement : Element :=
  { uuid := "cube1", efrom := some [0, 0, 0], eto := some [1, 1, 1] }

/-- An object predicate whose colours are `[[16, 0]]`. -/
def cmdObjA : CmdObject := { colors := some [[16, 0]] }

/-- An object predicate whose colours are `[[4096]]`. -/
def cmdObjB : CmdObject := { colors := some [[4096]] }

/-- The freshly created import model that the predicate decoding step is
applied to (part_000 lines 2240-2252). -/
def baseImportModel : ModelData :=
  { name := "imported", customModelData := 1, targetItem := "stick" }

/-- A bitmap font provider violating the ascent < height invariant. -/
def ascentProvider : FontProvider :=
  { type := "bitmap", ascent := some 10, height := some 8,
    chars := some [""], fileHandle := some { fname := "gui.png" } }

/-- A font carrying `ascentProvider`. -/
def ascentFont : CustomFont := { name := "gui", providers := [ascentProvider] }

/-- An otherwise-valid pack whose single font has ascent ≥ height. -/
def ascentPack : ResourcePack :=
  { name := "pack", description := "desc",
    models := [{ name := "m", customModelData := 1, targetItem := "stick",
                 textures := [("layer0", "gem")] }]
    fonts := [ascentFont] }

/-- Distinct texture contents contributed by two packs in the merge
examples. -/
def metaA : FileMeta := { fname := "gem", tok := 1, size := 10 }

/-- See `metaA`. -/
def metaB : FileMeta := { fname := "gem", tok := 2, size := 20 }

/-- Neither end of the character list is JavaScript whitespace. -/
def noEdgeWs (l : List Char) : Bool :=
  (match l.head? with
   | some c => !isJsWs c
   | none => true) &&
  (match l.getLast? with
   | some c => !isJsWs c
   | none => true)

/-- A key that survives the `.lang` round trip: nonempty, no `=`, no
newline, no surrounding whitespace, and not opening a comment. -/
def validLangKey (k : String) : Prop :=
  k.data ≠ [] ∧ '=' ∉ k.data ∧ '\n' ∉ k.data ∧ noEdgeWs k.data = true ∧
  k.data.head? ≠ some '#' ∧ k.data.take 2 ≠ ['/', '/']

/-- A value that survives the `.lang` round trip: no newline and no
surrounding whitespace. -/
def validLangValue (v : String) : Prop :=
  '\n' ∉ v.data ∧ noEdgeWs v.data = true

/-- `validLangKey` is decidable (used by concrete witnesses). -/
instance : DecidablePred validLangKey := fun k => by
  unfold validLangKey
  exact inferInstance

/-- `validLangValue` is decidable (used by concrete witnesses). -/
instance : DecidablePred validLangValue := fun v => by
  unfold validLangValue
  exact inferInstance

/-- Boolean equality for the item-definition sum type (used for
decidable membership in witness statements). -/
instance : BEq (DispatchDoc ⊕ OverrideDoc) := ⟨fun a b => decide (a = b)⟩

instance : LawfulBEq (DispatchDoc ⊕ OverrideDoc) where
  eq_of_beq h := of_decide_eq_true h
  rfl := decide_eq_true rfl

/-! ## Theorems -/

/-- **C1** (code bug).  The claim — backed by the own documentation
of the repository ("custom_model_data: 0 — Now valid!", "Validation Rules:
custom_model_data >= 0 (was: >= 1)") — says a model with primary
identifier 0 validates and is exported.  The code does the opposite:
`validateModel` flags it ("Valid custom model data is required") because
`!model.customModelData` is true for 0, and the `validModels` filter
of `generateZip` drops it, so neither an item definition nor a model
document is emitted for it. -/
theorem c1_cmd_zero_rejected :
    (validateModel zeroModel).isValid = false
    ∧ "Valid custom model data is required" ∈ (validateModel zeroModel).errors
    ∧ validModels zeroPack.models = []
    ∧ javaItemDefEntries zeroPack.format (validModels zeroPack.models) = []
    ∧ javaModelEntries (validModels zeroPack.models) = [] := by
  refine ⟨by decide, by decide, by decide, by decide, by decide⟩

/-- Sorting a group with pairwise-distinct identifiers yields strictly
ascending identifiers. -/
theorem sortModels_strict (ms : List ModelData)
    (h : (ms.map (fun m => m.customModelData)).Nodup) :
    ((sortModels ms).map (fun m => m.customModelData)).Pairwise (· < ·) := by
  have hs : (sortModels ms).Pairwise cmdLE := List.sorted_insertionSort cmdLE ms
  have hle : ((sortModels ms).map (fun m => m.customModelData)).Pairwise (· ≤ ·) :=
    List.pairwise_map.mpr hs
  have hperm : List.Perm ((sortModels ms).map (fun m => m.customModelData))
      (ms.map (fun m => m.customModelData)) :=
    (List.perm_insertionSort cmdLE ms).map _
  have hnd : ((sortModels ms).map (fun m => m.customModelData)).Nodup :=
    hperm.nodup_iff.mpr h
  exact (hle.and hnd).imp (fun hab => lt_of_le_of_ne hab.1 hab.2)

/-- **C2** (confirmed).  For every target-item group with distinct primary
identifiers, the emitted selection entries are strictly ascending by
identifier in both branches: the `range_dispatch` document (format ≥ 48)
and the legacy override list (format < 48). -/
theorem c2_entries_sorted (format : Int) (models : List ModelData)
    (h : ∀ g ∈ itemGroups (validModels models),
      (g.2.map (fun m => m.customModelData)).Nodup) :
    ∀ e ∈ itemDefinitions format (validModels models),
      (∀ d, e.2 = Sum.inl d → (d.entries.map Prod.fst).Pairwise (· < ·))
      ∧ (∀ o, e.2 = Sum.inr o → (o.overrides.map Prod.fst).Pairwise (· < ·)) := by
  intro e he
  obtain ⟨g, hg, rfl⟩ := List.mem_map.mp he
  have hsorted := sortModels_strict g.2 (h g hg)
  unfold itemDefinitionFor
  by_cases hf : format ≥ 48
  · simp only [if_pos hf]
    refine ⟨fun d hd => ?_, fun o ho => by simp at ho⟩
    obtain rfl : makeDispatchDoc g.1 (sortModels g.2) = d := by simpa using hd
    simpa [makeDispatchDoc, List.map_map, Function.comp] using hsorted
  · simp only [if_neg hf]
    refine ⟨fun d hd => by simp at hd, fun o ho => ?_⟩
    obtain rfl : makeOverrideDoc g.1 (sortModels g.2) = o := by simpa using ho
    simpa [makeOverrideDoc, List.map_map, Function.comp] using hsorted

/-- Witness for `c2_entries_sorted` at a concrete two-model group, in both
format branches. -/
theorem c2_entries_sorted_witness :
    ((makeDispatchDoc "stick" (sortModels
        [{ name := "m2", customModelData := 7, targetItem := "stick" },
         { name := "m1", customModelData := 3, targetItem := "stick" }])).entries.map
      Prod.fst).Pairwise (· < ·)
    ∧ ((makeOverrideDoc "stick" (sortModels
        [{ name := "m2", customModelData := 7, targetItem := "stick" },
         { name := "m1", customModelData := 3, targetItem := "stick" }])).overrides.map
      Prod.fst).Pairwise (· < ·) := by
  refine ⟨?_, ?_⟩
  · exact ((c2_entries_sorted 63
      [{ name := "m2", customModelData := 7, targetItem := "stick" },
       { name := "m1", customModelData := 3, targetItem := "stick" }] (by decide))
      ("assets/minecraft/items/stick.json", Sum.inl (makeDispatchDoc "stick" (sortModels
        [{ name := "m2", customModelData := 7, targetItem := "stick" },
         { name := "m1", customModelData := 3, targetItem := "stick" }])))
      (by decide)).1 _ rfl
  · exact ((c2_entries_sorted 34
      [{ name := "m2", customModelData := 7, targetItem := "stick" },
       { name := "m1", customModelData := 3, targetItem := "stick" }] (by decide))
      ("assets/minecraft/models/item/stick.json", Sum.inr (makeOverrideDoc "stick" (sortModels
        [{ name := "m2", customModelData := 7, targetItem := "stick" },
         { name := "m1", customModelData := 3, targetItem := "stick" }])))
      (by decide)).2 _ rfl

/-- **C3 counterexample.**  The input tree has two nodes: top-level
`root` and the nested group `inner` (with origin `[1,2,3]` and an element
child).  The claim says both become bones and the `inner` bone carries
`parent = "root"`; the converter instead emits exactly one bone — `root`,
with no cubes and no parent link — because `processBone` never recurses
into object children and never passes `parentName`. -/
theorem c3_counterexample :
    (convertToBedrock "m" none [rootItem] [cubeElement]).bones =
      [{ name := "root", pivot := [0, 0, 0], parent := none, rotation := none, cubes := [] }]
    ∧ (convertToBedrock "m" none [rootItem] [cubeElement]).bones.length = 1 := by
  refine ⟨by decide, by decide⟩

/-- **C3 (amended).**  The converter walks only the TOP LEVEL of the node
tree: exactly the top-level nodes become bones (nested group children are
dropped), the pivot of every bone is the origin of its node or the zero vector, its
rotation is carried over, and no bone ever receives a parent-name link. -/
theorem c3_amended (modelName : String) (res : Option (Int × Int))
    (outliner : List OutlinerItem) (elements : List Element) :
    (convertToBedrock modelName res outliner elements).bones =
      outliner.map (processBone elements none)
    ∧ (convertToBedrock modelName res outliner elements).bones.length = outliner.length
    ∧ (∀ b ∈ (convertToBedrock modelName res outliner elements).bones, b.parent = none)
    ∧ (∀ item ∈ outliner,
        (processBone elements none item).pivot = item.origin.getD [0, 0, 0]
        ∧ (processBone elements none item).rotation = item.rotation) := by
  refine ⟨rfl, by simp [convertToBedrock], ?_, ?_⟩
  · intro b hb
    simp only [convertToBedrock, List.mem_map] at hb
    obtain ⟨item, _, rfl⟩ := hb
    rfl
  · intro item _
    exact ⟨rfl, rfl⟩

/-- Witness for `c3_amended` at the concrete nested example. -/
theorem c3_amended_witness :
    (convertToBedrock "m" none [innerItem] [cubeElement]).bones.length = 1
    ∧ (processBone [cubeElement] none innerItem).pivot = [1, 2, 3] := by
  have h := c3_amended "m" none [innerItem] [cubeElement]
  refine ⟨h.2.1, ?_⟩
  have h2 := (h.2.2.2 innerItem (List.mem_singleton.mpr rfl)).1
  rw [h2]
  decide

/-- The synthetic identifier is always in `[1, 10000]`. -/
theorem foldCmd_range (h : Int) : 1 ≤ foldCmd h ∧ foldCmd h ≤ 10000 := by
  unfold foldCmd
  have hlt : h.natAbs % 10000 < 10000 := Nat.mod_lt _ (by decide)
  omega

/-- **C4 counterexample.**  Colours are NOT stored verbatim: the importer
rewrites each colour to a `#`-hex string, and the rewrite conflates
distinct predicates.  `{colors: [[16, 0]]}` and `{colors: [[4096]]}` are
different predicates, yet both models receive the identical extended
identifier (floats/flags/strings/colours all equal, colours = ["#1000"]). -/
theorem c4_colors_not_verbatim :
    cmdObjA ≠ cmdObjB
    ∧ (applyCmdPredicate (.obj cmdObjA) baseImportModel).customModelDataColors =
        (applyCmdPredicate (.obj cmdObjB) baseImportModel).customModelDataColors
    ∧ (applyCmdPredicate (.obj cmdObjA) baseImportModel).customModelDataColors = ["#1000"]
    ∧ (applyCmdPredicate (.obj cmdObjA) baseImportModel).customModelDataFloats =
        (applyCmdPredicate (.obj cmdObjB) baseImportModel).customModelDataFloats
    ∧ (applyCmdPredicate (.obj cmdObjA) baseImportModel).customModelDataFlags =
        (applyCmdPredicate (.obj cmdObjB) baseImportModel).customModelDataFlags
    ∧ (applyCmdPredicate (.obj cmdObjA) baseImportModel).customModelDataStrings =
        (applyCmdPredicate (.obj cmdObjB) baseImportModel).customModelDataStrings := by
  refine ⟨by decide, by decide, by decide, by decide, by decide, by decide⟩

/-- **C4 (amended).**  A plain-integer predicate becomes the primary
identifier directly; an object predicate stores floats/flags/strings
verbatim but stores colours CONVERTED to padded hex strings, and receives
a synthetic primary identifier — the deterministic string hash of the
serialised predicate folded into `[1, 10000]`. -/
theorem c4_amended (n : Int) (o : CmdObject) (m : ModelData) :
    (applyCmdPredicate (.num n) m).customModelData = n
    ∧ (applyCmdPredicate (.obj o) m).customModelDataFloats =
        o.floats.getD m.customModelDataFloats
    ∧ (applyCmdPredicate (.obj o) m).customModelDataFlags =
        o.flags.getD m.customModelDataFlags
    ∧ (applyCmdPredicate (.obj o) m).customModelDataStrings =
        o.strings.getD m.customModelDataStrings
    ∧ (applyCmdPredicate (.obj o) m).customModelDataColors =
        (o.colors.map (fun cs => cs.map hexColor)).getD m.customModelDataColors
    ∧ (applyCmdPredicate (.obj o) m).customModelData =
        foldCmd (jsHash (serializeCmdObject o))
    ∧ 1 ≤ (applyCmdPredicate (.obj o) m).customModelData
    ∧ (applyCmdPredicate (.obj o) m).customModelData ≤ 10000 := by
  obtain ⟨f, fl, s, c⟩ := o
  cases f <;> cases fl <;> cases s <;> cases c <;>
    exact ⟨rfl, rfl, rfl, rfl, rfl, rfl, (foldCmd_range _).1, (foldCmd_range _).2⟩

/-- **C5** (confirmed).  The resolver strategies run in fixed order with
first hit winning: whenever a strategy-1 (exact path) or strategy-2
(stripped type folder) candidate exists in the index, the suffix strategy
(3) is never the one that fires; and when no strategy matches, the cleaned
reference itself — never null — is recorded, one entry per layer, and
the import continues (the resolver is total). -/
theorem c5_resolver_order (keys : List String) (ref : String) :
    ((stripNamespace ref ∈ keys
        ∨ ("item/" ++ stripTypeFolders (stripNamespace ref)) ∈ keys
        ∨ stripTypeFolders (stripNamespace ref) ∈ keys) →
      ((resolveTexture keys ref).strategy = 1 ∨ (resolveTexture keys ref).strategy = 2))
    ∧ ((resolveTexture keys ref).found = false →
        (resolveTexture keys ref).name = stripTypeFolders (stripNamespace ref))
    ∧ (∀ layers : List (String × String),
        (resolveLayerMap keys layers).map Prod.fst = layers.map Prod.fst) := by
  unfold resolveTexture
  refine ⟨?_, ?_, ?_⟩
  · intro hc
    split_ifs with h1 h2 h3
    · exact Or.inl rfl
    · exact Or.inr rfl
    · exact Or.inr rfl
    · rcases hc with h | h | h
      · exact absurd h h1
      · exact absurd h h2
      · exact absurd h h3
  · split_ifs with h1 h2 h3
    · intro h; simp at h
    · intro h; simp at h
    · intro h; simp at h
    · cases hf : keys.find? (fun k =>
        strEnds k ("/" ++ lastSeg (stripTypeFolders (stripNamespace ref))) ||
        decide (k = lastSeg (stripTypeFolders (stripNamespace ref))) ||
        decide (k = "item/" ++ lastSeg (stripTypeFolders (stripNamespace ref)))) with
      | none => intro _; rfl
      | some k => intro h; simp at h
  · intro layers
    simp [resolveLayerMap]

/-- Witness for `c5_resolver_order`: with an exact-path candidate present
the resolver does not use strategy 3, and with an empty index the cleaned
name is still recorded. -/
theorem c5_resolver_order_witness :
    ((resolveTexture ["item/gem"] "minecraft:item/gem").strategy = 1
      ∨ (resolveTexture ["item/gem"] "minecraft:item/gem").strategy = 2)
    ∧ (resolveTexture [] "minecraft:item/gem").name =
        stripTypeFolders (stripNamespace "minecraft:item/gem") := by
  refine ⟨(c5_resolver_order ["item/gem"] "minecraft:item/gem").1 (by decide),
    (c5_resolver_order [] "minecraft:item/gem").2.1 (by decide)⟩

/-- **C7** (code bug).  The claim — and the documented
validation rule "ascent < height for bitmap fonts" — says a pack with a
bitmap provider whose ascent ≥ height is reported invalid while export
still emits the provider.  The export half is true, but validation never
inspects fonts at all: `validateResourcePack` returns the same result for
any fonts list, and on the concrete violating pack it reports the pack
VALID, while the export emits the provider with ascent 10 / height 8
unchanged inside the font document. -/
theorem c7_validation_ignores_fonts :
    (∀ (rp : ResourcePack) (fonts : List CustomFont),
        validateResourcePack { rp with fonts := fonts } = validateResourcePack rp)
    ∧ (validateResourcePack ascentPack).isValid = true
    ∧ jsOrNum ascentProvider.height 8 ≤ jsOrNum ascentProvider.ascent 8
    ∧ (makeProviderJson ascentFont ascentProvider).ascent = some 10
    ∧ (makeProviderJson ascentFont ascentProvider).height = some 8
    ∧ ("assets/minecraft/font/gui.json",
        ZData.fontDoc [makeProviderJson ascentFont ascentProvider]) ∈
        generateZipEntries "u1" "u2" "t" "java" ascentPack := by
  refine ⟨fun rp fonts => rfl, by decide, by decide, by decide, by decide, by decide⟩

/-- **C8** (confirmed).  `generateZip` is a pure reader of the asset
model: in both outcomes (validation failure or archive production) the
resulting component state carries the `resourcePack` unchanged — every
field, including name, description, version, format and all collections,
is preserved (only the processing indicators are written). -/
theorem c8_export_pure_reader (uuidA uuidB now : String) (st : AppState) :
    ((generateZip uuidA uuidB now st).1).resourcePack = st.resourcePack
    ∧ ((generateZip uuidA uuidB now st).1).resourcePack.name = st.resourcePack.name
    ∧ ((generateZip uuidA uuidB now st).1).resourcePack.description = st.resourcePack.description
    ∧ ((generateZip uuidA uuidB now st).1).resourcePack.version = st.resourcePack.version
    ∧ ((generateZip uuidA uuidB now st).1).resourcePack.format = st.resourcePack.format
    ∧ ((generateZip uuidA uuidB now st).1).resourcePack.models = st.resourcePack.models
    ∧ ((generateZip uuidA uuidB now st).1).resourcePack.textures = st.resourcePack.textures
    ∧ ((generateZip uuidA uuidB now st).1).resourcePack.fonts = st.resourcePack.fonts
    ∧ ((generateZip uuidA uuidB now st).1).resourcePack.sounds = st.resourcePack.sounds
    ∧ ((generateZip uuidA uuidB now st).1).resourcePack.languages = st.resourcePack.languages
    ∧ ((generateZip uuidA uuidB now st).1).resourcePack.particles = st.resourcePack.particles
    ∧ ((generateZip uuidA uuidB now st).1).resourcePack.shaders = st.resourcePack.shaders
    ∧ ((generateZip uuidA uuidB now st).1).resourcePack.packIcon = st.resourcePack.packIcon := by
  have h : ((generateZip uuidA uuidB now st).1).resourcePack = st.resourcePack := by
    unfold generateZip
    split_ifs <;> rfl
  refine ⟨h, ?_, ?_, ?_, ?_, ?_, ?_, ?_, ?_, ?_, ?_, ?_, ?_⟩ <;> rw [h]

/-- Folding `addTexture` over a list appends exactly the corresponding
textures and touches nothing else. -/
theorem foldl_addTexture (l : List (String × FileMeta)) (rp : ResourcePack) :
    l.foldl (fun pack kv => addTexture pack (mkMergedTexture kv)) rp =
      { rp with textures := rp.textures ++ l.map mkMergedTexture } := by
  induction l generalizing rp with
  | nil => simp
  | cons kv t ih =>
    rw [List.foldl_cons, ih]
    simp [addTexture]

/-- **C9** (confirmed).  Merge execution feeds only textures back into the
asset model: the result is the input pack with the resolved texture files
appended to its texture collection; the models collection — and every
other field — is unchanged (the parsed model documents collected in the
second component of the scan are discarded). -/
theorem c9_merge_feeds_only_textures (conflicts : List MergeConflict)
    (packs : List MergePack) (rp : ResourcePack) :
    executeMerge conflicts packs rp =
      { rp with textures := rp.textures ++
          (executeMergeTextures conflicts packs).map mkMergedTexture }
    ∧ (executeMerge conflicts packs rp).models = rp.models
    ∧ (executeMerge conflicts packs rp).textures =
        rp.textures ++ (executeMergeTextures conflicts packs).map mkMergedTexture
    ∧ (executeMerge conflicts packs rp).fonts = rp.fonts
    ∧ (executeMerge conflicts packs rp).sounds = rp.sounds
    ∧ (executeMerge conflicts packs rp).languages = rp.languages
    ∧ (executeMerge conflicts packs rp).particles = rp.particles
    ∧ (executeMerge conflicts packs rp).shaders = rp.shaders
    ∧ (executeMerge conflicts packs rp).name = rp.name
    ∧ (executeMerge conflicts packs rp).description = rp.description
    ∧ (executeMerge conflicts packs rp).version = rp.version
    ∧ (executeMerge conflicts packs rp).format = rp.format
    ∧ (executeMerge conflicts packs rp).packIcon = rp.packIcon := by
  have h : executeMerge conflicts packs rp =
      { rp with textures := rp.textures ++
          (executeMergeTextures conflicts packs).map mkMergedTexture } :=
    foldl_addTexture _ rp
  refine ⟨h, ?_, ?_, ?_, ?_, ?_, ?_, ?_, ?_, ?_, ?_, ?_, ?_⟩ <;> rw [h]

/-- `indexOf` finds the first occurrence: on `l ++ c :: r` with `c ∉ l`
it is `l.length`. -/
theorem charIndexOf_append_no (l r : List Char) (c : Char) (h : c ∉ l) :
    charIndexOf (l ++ c :: r) c = some l.length := by
  induction l with
  | nil => simp [charIndexOf]
  | cons a t ih =>
    have ha : a ≠ c := fun hac => h (hac ▸ List.mem_cons_self a t)
    simp [charIndexOf, ha, ih (fun hm => h (List.mem_cons_of_mem a hm))]

/-- Dropping one past the left part of `l ++ x :: r` yields `r`. -/
theorem drop_len_succ_append (l r : List Char) (x : Char) :
    (l ++ x :: r).drop (l.length + 1) = r := by
  induction l with
  | nil => simp
  | cons a t ih => simp [ih]

/-- A non-dollar head character passes through the substitution. -/
theorem getSubstitution_cons_ne (matched before after : List Char) (c : Char)
    (l : List Char) (hc : ¬c = '$') :
    getSubstitution matched before after (c :: l) =
      c :: getSubstitution matched before after l := by
  cases l with
  | nil => rfl
  | cons d t =>
    conv_lhs => rw [getSubstitution.eq_def]
    simp only [if_neg hc]

/-- Dollar-free template text passes through the substitution verbatim. -/
theorem getSubstitution_append (matched before after l rest : List Char)
    (h : '$' ∉ l) :
    getSubstitution matched before after (l ++ rest) =
      l ++ getSubstitution matched before after rest := by
  induction l with
  | nil => rfl
  | cons a t ih =>
    have ha : ¬a = '$' := fun hac => h (hac ▸ List.mem_cons_self a t)
    rw [List.cons_append, getSubstitution_cons_ne _ _ _ a _ ha,
      ih (fun hm => h (List.mem_cons_of_mem a hm))]
    rfl

/-- The trailing dollar-one of the template inserts the matched
substring. -/
theorem getSubstitution_group (matched before after : List Char) :
    getSubstitution matched before after ['$', '1'] = matched := by
  simp [getSubstitution, backquoteChar, quoteChar]

/-- The full replacement template (underscore, then a dollar-free package
name, then dollar-one) expands to the literal name followed by the matched
substring. -/
theorem getSubstitution_template (matched before after n : List Char)
    (h : '$' ∉ n) :
    getSubstitution matched before after ('_' :: n ++ ['$', '1']) =
      '_' :: n ++ matched := by
  have h2 : '$' ∉ '_' :: n := by
    intro hm
    rcases List.mem_cons.mp hm with hc | hc
    · exact absurd hc.symm (by decide)
    · exact h hc
  have happ := getSubstitution_append matched before after ('_' :: n) ['$', '1'] h2
  rw [getSubstitution_group] at happ
  exact happ

/-- On a path of the shape `pre ++ "." ++ ext` (nonempty, dot-free
extension) and for a dollar-free package name, the merge rename inserts
`_packName` before the extension. -/
theorem renamePath_ext (n pre ext : String) (hne : ext.data ≠ []) (hdot : '.' ∉ ext.data)
    (hdollar : '$' ∉ n.data) :
    renamePath n (pre ++ "." ++ ext) = pre ++ "_" ++ n ++ "." ++ ext := by
  have hdata : (pre ++ "." ++ ext).data = pre.data ++ '.' :: ext.data := by
    simp [String.data_append]
  have hrev : (pre ++ "." ++ ext).data.reverse =
      ext.data.reverse ++ '.' :: pre.data.reverse := by
    rw [hdata]
    simp [List.reverse_append]
  have hfind : charIndexOf ((pre ++ "." ++ ext).data.reverse) '.' =
      some ext.data.reverse.length := by
    rw [hrev]
    exact charIndexOf_append_no _ _ _ (fun hm => hdot (List.mem_reverse.mp hm))
  have hlen : ext.data.reverse.length ≠ 0 := by
    simpa using fun h => hne (List.eq_nil_of_length_eq_zero (by simpa using h))
  unfold renamePath
  rw [hfind]
  simp only [hlen, if_false, reduceIte]
  apply String.ext
  have htake : ((pre ++ "." ++ ext).data.reverse.take ext.data.reverse.length) =
      ext.data.reverse := by
    rw [hrev]
    exact List.take_left _ _
  have hdrop : ((pre ++ "." ++ ext).data.reverse.drop (ext.data.reverse.length + 1)) =
      pre.data.reverse := by
    rw [hrev]
    exact drop_len_succ_append _ _ _
  rw [htake, hdrop]
  simp only [List.reverse_reverse]
  rw [getSubstitution_template ('.' :: ext.data) pre.data [] n.data hdollar]
  simp [String.data_append]

/-- Distinct package names give distinct renamed paths. -/
theorem renamed_ne (pre n1 n2 ext : String) (hn : n1 ≠ n2) :
    pre ++ "_" ++ n1 ++ "." ++ ext ≠ pre ++ "_" ++ n2 ++ "." ++ ext := by
  intro h
  apply hn
  have hd := congrArg String.data h
  simp only [String.data_append, List.append_assoc] at hd
  have h1 := List.append_cancel_left hd
  have h2 := List.append_cancel_left h1
  exact String.ext (List.append_cancel_right h2)

/-- `Map.set` on an empty map appends. -/
theorem jsMapSet_nil {β : Type} (k : String) (v : β) : jsMapSet [] k v = [(k, v)] := rfl

/-- `Map.set` on the singleton of the key itself replaces the value in place. -/
theorem jsMapSet_same {β : Type} (k : String) (v w : β) :
    jsMapSet [(k, v)] k w = [(k, w)] := by
  simp [jsMapSet, List.find?]

/-- `Map.set` with a fresh key appends. -/
theorem jsMapSet_other {β : Type} (k1 k2 : String) (v w : β) (h : k1 ≠ k2) :
    jsMapSet [(k1, v)] k2 w = [(k1, v), (k2, w)] := by
  simp [jsMapSet, List.find?, h]

/-- One merge-scan step on a `textures/` entry whose path has a conflict
entry: the step reduces to the map update of the resolution. -/
theorem mergeScanStep_conflict (mode : Resolution) (pk : String)
    (acc : List (String × FileMeta) × List (String × Nat)) (p : String) (x : FileMeta)
    (htex : strIncludes p "textures/" = true) :
    mergeScanStep [⟨p, mode⟩] pk acc (p, x) =
      (match mode with
       | .skip =>
         if (acc.1.find? (fun kv => decide (kv.1 = p))).isSome then acc
         else (jsMapSet acc.1 p x, acc.2)
       | .rename => (jsMapSet acc.1 (renamePath pk p) x, acc.2)
       | .overwrite => (jsMapSet acc.1 p x, acc.2)) := by
  unfold mergeScanStep
  rw [if_pos htex]
  rw [List.find?_cons_of_pos _ (by simp)]

/-- **C6 counterexample.**  Two independent refutations of "under rename
every contributor survives at a distinct path … for packages with
distinct names".  First, on a conflicting texture path WITHOUT a
dot-extension (`textures/item/gem`) the rename regex `(\.[^.]+)$` does not
match, both contributors are stored under the unchanged path, and only the
last-scanned contributor survives.  Second, the replacement string
`_${pack.name}$1` is an ECMAScript substitution template, so
dollar sequences inside a package name are expanded: the distinct names
`a$1b` and `a.pngb` both rename `textures/item/gem.png` to
`textures/item/gem_a.pngb.png`, and again only the last contributor
survives. -/
theorem c6_rename_extensionless_collides :
    renamePath "packA" "textures/item/gem" = "textures/item/gem"
    ∧ executeMergeTextures [⟨"textures/item/gem", .rename⟩]
        [⟨"packA", [("textures/item/gem", metaA)]⟩,
         ⟨"packB", [("textures/item/gem", metaB)]⟩] =
        [("textures/item/gem", metaB)]
    ∧ metaA ≠ metaB
    ∧ ("a$1b" : String) ≠ "a.pngb"
    ∧ renamePath "a$1b" "textures/item/gem.png" = "textures/item/gem_a.pngb.png"
    ∧ renamePath "a.pngb" "textures/item/gem.png" = "textures/item/gem_a.pngb.png"
    ∧ executeMergeTextures [⟨"textures/item/gem.png", .rename⟩]
        [⟨"a$1b", [("textures/item/gem.png", metaA)]⟩,
         ⟨"a.pngb", [("textures/item/gem.png", metaB)]⟩] =
        [("textures/item/gem_a.pngb.png", metaB)] := by
  refine ⟨by decide, by decide, by decide, by decide, by decide, by decide, by decide⟩

/-- **C6 (amended).**  For a conflicting texture path that ends in a
dot-extension (`pre ++ "." ++ ext`, extension nonempty and dot-free), the
resolution mode determines the survivors exactly as claimed: `overwrite`
keeps the content of the last-scanned contributor, `skip` keeps the
content of the first-scanned contributor, and `rename` — for package
names that contain no dollar character, so that the replacement template
inserts them literally — keeps every contributor at the distinct path
obtained by inserting `_<packageName>` before the extension (distinct
dollar-free names give distinct paths).  Without such an extension, or
with dollar sequences in a package name (which the replacement expands as
substitution patterns), the rename clause fails — see the
counterexample for both. -/
theorem c6_merge_resolutions (n1 n2 : String) (a b : FileMeta) (pre ext : String)
    (hn : n1 ≠ n2) (hd1 : '$' ∉ n1.data) (hd2 : '$' ∉ n2.data)
    (hne : ext.data ≠ []) (hdot : '.' ∉ ext.data)
    (htex : strIncludes (pre ++ "." ++ ext) "textures/" = true) :
    executeMergeTextures [⟨pre ++ "." ++ ext, .overwrite⟩]
        [⟨n1, [(pre ++ "." ++ ext, a)]⟩, ⟨n2, [(pre ++ "." ++ ext, b)]⟩] =
      [(pre ++ "." ++ ext, b)]
    ∧ executeMergeTextures [⟨pre ++ "." ++ ext, .skip⟩]
        [⟨n1, [(pre ++ "." ++ ext, a)]⟩, ⟨n2, [(pre ++ "." ++ ext, b)]⟩] =
      [(pre ++ "." ++ ext, a)]
    ∧ executeMergeTextures [⟨pre ++ "." ++ ext, .rename⟩]
        [⟨n1, [(pre ++ "." ++ ext, a)]⟩, ⟨n2, [(pre ++ "." ++ ext, b)]⟩] =
      [(pre ++ "_" ++ n1 ++ "." ++ ext, a), (pre ++ "_" ++ n2 ++ "." ++ ext, b)]
    ∧ pre ++ "_" ++ n1 ++ "." ++ ext ≠ pre ++ "_" ++ n2 ++ "." ++ ext := by
  have hr1 := renamePath_ext n1 pre ext hne hdot hd1
  have hr2 := renamePath_ext n2 pre ext hne hdot hd2
  have hrne := renamed_ne pre n1 n2 ext hn
  refine ⟨?_, ?_, ?_, hrne⟩
  · unfold executeMergeTextures mergeScan
    simp only [List.foldl_cons, List.foldl_nil]
    rw [mergeScanStep_conflict _ _ _ _ _ htex, mergeScanStep_conflict _ _ _ _ _ htex]
    simp [jsMapSet_nil, jsMapSet_same]
  · unfold executeMergeTextures mergeScan
    simp only [List.foldl_cons, List.foldl_nil]
    rw [mergeScanStep_conflict _ _ _ _ _ htex, mergeScanStep_conflict _ _ _ _ _ htex]
    simp [jsMapSet_nil, List.find?]
  · unfold executeMergeTextures mergeScan
    simp only [List.foldl_cons, List.foldl_nil]
    rw [mergeScanStep_conflict _ _ _ _ _ htex, mergeScanStep_conflict _ _ _ _ _ htex]
    simp only [jsMapSet_nil, hr1, hr2]
    rw [jsMapSet_other _ _ _ _ hrne]

/-- Witness for `c6_merge_resolutions` at the concrete path
`textures/item/gem.png` and packages `packA`/`packB`. -/
theorem c6_merge_resolutions_witness :
    executeMergeTextures [⟨"textures/item/gem.png", .rename⟩]
        [⟨"packA", [("textures/item/gem.png", metaA)]⟩,
         ⟨"packB", [("textures/item/gem.png", metaB)]⟩] =
      [("textures/item/gem_packA.png", metaA), ("textures/item/gem_packB.png", metaB)]
    ∧ executeMergeTextures [⟨"textures/item/gem.png", .skip⟩]
        [⟨"packA", [("textures/item/gem.png", metaA)]⟩,
         ⟨"packB", [("textures/item/gem.png", metaB)]⟩] =
      [("textures/item/gem.png", metaA)] := by
  have h := c6_merge_resolutions "packA" "packB" metaA metaB "textures/item/gem" "png"
    (by decide) (by decide) (by decide) (by decide) (by decide) (by decide)
  exact ⟨h.2.2.1, h.2.1⟩

/-- A list with non-whitespace head survives `dropWhile isJsWs`. -/
theorem dropWhile_eq_self_of_head (l : List Char)
    (h : ∀ c, l.head? = some c → isJsWs c = false) : l.dropWhile isJsWs = l := by
  cases l with
  | nil => rfl
  | cons a t =>
    rw [List.dropWhile_cons, h a rfl]
    simp

/-- Extract the head condition of `noEdgeWs`. -/
theorem noEdgeWs_head (l : List Char) (h : noEdgeWs l = true) (c : Char)
    (hc : l.head? = some c) : isJsWs c = false := by
  unfold noEdgeWs at h
  rw [hc] at h
  simp at h
  exact h.1

/-- Extract the last-character condition of `noEdgeWs`. -/
theorem noEdgeWs_last (l : List Char) (h : noEdgeWs l = true) (c : Char)
    (hc : l.getLast? = some c) : isJsWs c = false := by
  unfold noEdgeWs at h
  rw [hc] at h
  simp at h
  exact h.2

/-- `trim` is the identity on a list with no whitespace at either end. -/
theorem jsTrimL_eq_self (l : List Char)
    (hhead : ∀ c, l.head? = some c → isJsWs c = false)
    (hlast : ∀ c, l.getLast? = some c → isJsWs c = false) : jsTrimL l = l := by
  unfold jsTrimL
  rw [dropWhile_eq_self_of_head l hhead]
  rw [dropWhile_eq_self_of_head l.reverse (fun c hc => hlast c (by rwa [List.head?_reverse] at hc))]
  exact List.reverse_reverse l

/-- `split` never returns the empty list. -/
theorem splitOnChar_ne_nil (c : Char) (l : List Char) : splitOnChar c l ≠ [] := by
  induction l with
  | nil => simp [splitOnChar]
  | cons a t ih =>
    rw [splitOnChar]
    cases h : splitOnChar c t with
    | nil => exact absurd h ih
    | cons h' r => split_ifs <;> simp

/-- `split` on a separator-free list is the singleton. -/
theorem splitOnChar_no (c : Char) (l : List Char) (h : c ∉ l) :
    splitOnChar c l = [l] := by
  induction l with
  | nil => rfl
  | cons a t ih =>
    rw [splitOnChar, ih (fun hm => h (List.mem_cons_of_mem a hm))]
    have ha : ¬a = c := fun hac => h (hac ▸ List.mem_cons_self a t)
    simp [ha]

/-- `split` across the first separator. -/
theorem splitOnChar_append (c : Char) (l r : List Char) (h : c ∉ l) :
    splitOnChar c (l ++ c :: r) = l :: splitOnChar c r := by
  induction l with
  | nil =>
    rw [List.nil_append, splitOnChar]
    cases hs : splitOnChar c r with
    | nil => exact absurd hs (splitOnChar_ne_nil c r)
    | cons h' r' => simp [← hs]
  | cons a t ih =>
    rw [List.cons_append, splitOnChar, ih (fun hm => h (List.mem_cons_of_mem a hm))]
    have ha : ¬a = c := fun hac => h (hac ▸ List.mem_cons_self a t)
    simp [ha]

/-- `split` is a left inverse of `join` on newline-free lines. -/
theorem splitOnChar_join (c : Char) (ls : List (List Char)) (hls : ls ≠ [])
    (hnc : ∀ m ∈ ls, c ∉ m) : splitOnChar c (joinWithChar c ls) = ls := by
  induction ls with
  | nil => exact absurd rfl hls
  | cons l ls' ih =>
    cases ls' with
    | nil => exact splitOnChar_no c l (hnc l (List.mem_cons_self l []))
    | cons l2 more =>
      rw [joinWithChar, splitOnChar_append c l _ (hnc l (List.mem_cons_self l _))]
      rw [ih (by simp) (fun m hm => hnc m (List.mem_cons_of_mem l hm))]

/-- `Map.set` with a key absent from the map appends. -/
theorem jsMapSet_fresh {β : Type} (m : List (String × β)) (k : String) (v : β)
    (h : ∀ kv ∈ m, kv.1 ≠ k) : jsMapSet m k v = m ++ [(k, v)] := by
  unfold jsMapSet
  rw [List.find?_eq_none.mpr (fun x hx => by simpa using h x hx)]
  rfl

/-- A well-formed `key=value` line parses back to the keyed assignment of
exactly that key and value. -/
theorem parseLangLine_kv (acc : List (String × String)) (k v : String)
    (hk : validLangKey k) (hv : validLangValue v) :
    parseLangLine acc (k.data ++ '=' :: v.data) = jsMapSet acc k v := by
  obtain ⟨hk1, hk2, hk3, hk4, hk5, hk6⟩ := hk
  obtain ⟨hv1, hv2⟩ := hv
  obtain ⟨kh, kt, hkc⟩ := List.exists_cons_of_ne_nil hk1
  have hheadline : ∀ c, (k.data ++ '=' :: v.data).head? = some c → isJsWs c = false := by
    intro c hc
    rw [hkc] at hc
    simp at hc
    exact noEdgeWs_head k.data hk4 c (by rw [hkc, ← hc]; rfl)
  have hlastline : ∀ c, (k.data ++ '=' :: v.data).getLast? = some c → isJsWs c = false := by
    intro c hc
    rw [List.getLast?_append] at hc
    cases hvd : v.data with
    | nil =>
      rw [hvd] at hc
      simp at hc
      subst hc
      decide
    | cons vh vt =>
      rw [hvd, List.getLast?_cons_cons] at hc
      cases hgl : (vh :: vt).getLast? with
      | none =>
        have : vh :: vt ≠ [] := by simp
        rw [← List.getLast?_isSome, hgl] at this
        simp at this
      | some d =>
        rw [hgl] at hc
        simp at hc
        subst hc
        exact noEdgeWs_last v.data hv2 d (by rw [hvd]; exact hgl)
  have htrim : jsTrimL (k.data ++ '=' :: v.data) = k.data ++ '=' :: v.data :=
    jsTrimL_eq_self _ hheadline hlastline
  have hidx : charIndexOf (k.data ++ '=' :: v.data) '=' = some k.data.length :=
    charIndexOf_append_no _ _ _ hk2
  have htake : (k.data ++ '=' :: v.data).take k.data.length = k.data := List.take_left _ _
  have hdrop : (k.data ++ '=' :: v.data).drop (k.data.length + 1) = v.data :=
    drop_len_succ_append _ _ _
  have hpos : 0 < k.data.length := List.length_pos.mpr hk1
  have htrimk : jsTrimL k.data = k.data :=
    jsTrimL_eq_self _ (noEdgeWs_head k.data hk4) (noEdgeWs_last k.data hk4)
  have htrimv : jsTrimL v.data = v.data :=
    jsTrimL_eq_self _ (noEdgeWs_head v.data hv2) (noEdgeWs_last v.data hv2)
  have hempty : (k.data ++ '=' :: v.data).isEmpty = false := by
    rw [hkc]; rfl
  have hhash : ¬((k.data ++ '=' :: v.data).head? = some '#') := by
    rw [hkc]
    simp
    intro hkh
    apply hk5
    rw [hkc, hkh]
    rfl
  have hslash : ¬((k.data ++ '=' :: v.data).take 2 = ['/', '/']) := by
    rw [hkc]
    cases kt with
    | nil => simp
    | cons k2 kt' =>
      simp only [List.cons_append, List.take]
      intro hcontra
      apply hk6
      rw [hkc]
      simpa using hcontra
  unfold parseLangLine
  rw [htrim]
  simp only [hempty, Bool.false_eq_true, if_false]
  rw [if_neg hhash, if_neg hslash, hidx]
  simp only [hpos, if_true, htake, hdrop, htrimk, htrimv]

/-- Folding the line parser over well-formed lines with fresh, pairwise
distinct keys appends the entries in order. -/
theorem foldl_parseLangLine (entries : List (String × String))
    (acc : List (String × String))
    (hkeys : ∀ kv ∈ entries, validLangKey kv.1)
    (hvals : ∀ kv ∈ entries, validLangValue kv.2)
    (hfresh : ∀ kv ∈ entries, ∀ kv' ∈ acc, kv'.1 ≠ kv.1)
    (hnd : (entries.map Prod.fst).Nodup) :
    (entries.map (fun kv => kv.1.data ++ '=' :: kv.2.data)).foldl parseLangLine acc =
      acc ++ entries := by
  induction entries generalizing acc with
  | nil => simp
  | cons e es ih =>
    rw [List.map_cons, List.foldl_cons]
    rw [parseLangLine_kv acc e.1 e.2 (hkeys e (List.mem_cons_self e es))
      (hvals e (List.mem_cons_self e es))]
    rw [jsMapSet_fresh acc e.1 e.2 (fun kv' hkv' => hfresh e (List.mem_cons_self e es) kv' hkv')]
    have hnd2 := List.nodup_cons.mp (by rw [List.map_cons] at hnd; exact hnd)
    have hfresh2 : ∀ kv ∈ es, ∀ kv' ∈ acc ++ [e], kv'.1 ≠ kv.1 := by
      intro kv hkv kv' hkv'
      rcases List.mem_append.mp hkv' with h | h
      · exact hfresh kv (List.mem_cons_of_mem e hkv) kv' h
      · have he : kv' = e := by simpa using h
        rw [he]
        intro hcontra
        exact hnd2.1 (hcontra ▸ List.mem_map_of_mem Prod.fst hkv)
    rw [ih (acc ++ [e]) (fun kv hkv => hkeys kv (List.mem_cons_of_mem e hkv))
      (fun kv hkv => hvals kv (List.mem_cons_of_mem e hkv)) hfresh2 hnd2.2]
    simp

/-- **C10** (confirmed).  Language round trip: for a mapping whose keys
are nonempty, `=`-free, newline-free, untrimmed-whitespace-free and do not
open a comment, and whose values are newline-free with no surrounding
whitespace, encoding to the Bedrock `.lang` text and decoding it back
yields exactly the original mapping. -/
theorem c10_lang_roundtrip (code lname : String) (content : List (String × String))
    (hkeys : ∀ kv ∈ content, validLangKey kv.1)
    (hvals : ∀ kv ∈ content, validLangValue kv.2)
    (hnd : (content.map Prod.fst).Nodup) :
    convertBedrockLangToInternal (convertLangToBedrock content) code lname =
      { code := code, lname := lname, content := content } := by
  unfold convertBedrockLangToInternal convertLangToBedrock
  congr 1
  cases content with
  | nil => rfl
  | cons e es =>
    have hnc : ∀ m ∈ (e :: es).map (fun kv => kv.1.data ++ '=' :: kv.2.data), '\n' ∉ m := by
      intro m hm
      obtain ⟨kv, hkv, rfl⟩ := List.mem_map.mp hm
      obtain ⟨hk1, hk2, hk3, hk4, hk5, hk6⟩ := hkeys kv hkv
      obtain ⟨hv1, hv2⟩ := hvals kv hkv
      intro hmem
      rcases List.mem_append.mp hmem with h | h
      · exact hk3 h
      · rcases List.mem_cons.mp h with h | h
        · exact absurd h.symm (by decide)
        · exact hv1 h
    have hsplit : splitOnChar '\n'
        (String.mk (joinWithChar '\n'
          ((e :: es).map (fun kv => kv.1.data ++ '=' :: kv.2.data)))).data =
        (e :: es).map (fun kv => kv.1.data ++ '=' :: kv.2.data) :=
      splitOnChar_join '\n' _ (by simp) hnc
    rw [hsplit]
    simpa using foldl_parseLangLine (e :: es) [] hkeys hvals (by simp) hnd

/-- Witness for `c10_lang_roundtrip` on a concrete two-entry table (the
second value even contains an `=`, which the decoder handles by splitting
at the first `=` only). -/
theorem c10_lang_roundtrip_witness :
    convertBedrockLangToInternal
        (convertLangToBedrock [("item.gem", "Gem"), ("menu.title", "A=B")]) "en_us" "en" =
      { code := "en_us", lname := "en",
        content := [("item.gem", "Gem"), ("menu.title", "A=B")] } :=
  c10_lang_roundtrip "en_us" "en" [("item.gem", "Gem"), ("menu.title", "A=B")]
    (by decide) (by decide) (by decide)
